import Mathlib

/-!
Verification of the microbase-orm query-builder core against its source.

The embedding models `QueryBuilder.js` (the revision in `src/unnamed/part_001`,
called V1 below) together with the drivers it consumes
(`src/drivers/MySQLDriver.js`, `src/drivers/PostgreSQLDriver.js`), and, where a
claim cites it, the enhanced `QueryBuilder.js` revision embedded in
`CHANGELOG.md` (called V2 below: validation ceilings, `_addWhereClause`,
transaction support, batch validation).

JavaScript strings are modelled by `String`, JS arrays by `List`, JS objects by
association lists in insertion order, bound JS values by `Val` (with `Val.undefV`
standing for `undefined`), and a thrown JS `Error` by `Except.error`.  The
single `await driver.execute(...)` suspension point of each terminal method is
modelled by passing the driver's response (`Except String (List Row)`) as an
explicit argument.
-/

namespace Microbase

/-- Two strings with the same character data are equal. -/
theorem strDataInj {s t : String} (h : s.data = t.data) : s = t := by
  cases s; cases t; exact congrArg String.mk h

/-- String append is concatenation of character data. -/
theorem strDataAppend (s t : String) : (s ++ t).data = s.data ++ t.data := rfl

/-- Model of the JS `String.prototype.replace(/c/g, rep)` on character lists. -/
def charReplaceL (c : Char) (rep : List Char) : List Char → List Char
  | [] => []
  | x :: xs => (if x = c then rep else [x]) ++ charReplaceL c rep xs

/-- Model of the JS `Array.prototype.join(sep)`. -/
def joinSep (sep : String) : List String → String
  | [] => ""
  | [x] => x
  | x :: y :: xs => x ++ sep ++ joinSep sep (y :: xs)

/-- Model of the JS `String.prototype.split(c)` on character lists. -/
def splitCh (c : Char) : List Char → List (List Char)
  | [] => [[]]
  | x :: xs =>
    if x = c then [] :: splitCh c xs
    else
      match splitCh c xs with
      | [] => [[x]]
      | p :: ps => (x :: p) :: ps

/-- Model of the JS `String.prototype.includes(c)` for a single character. -/
def strContains (s : String) (c : Char) : Bool := s.data.contains c

/-- Model of the JS `String.prototype.trim()`. -/
def jsTrim (s : String) : String :=
  ⟨((s.data.dropWhile (·.isWhitespace)).reverse.dropWhile (·.isWhitespace)).reverse⟩

/-- Model of the JS `String.prototype.toUpperCase()` (ASCII). -/
def jsToUpper (s : String) : String := ⟨s.data.map Char.toUpper⟩

/-- Number of positional `?` placeholders in a character list. -/
def countQL (l : List Char) : Nat := l.countP (· = '?')

/-- A string free of `?` characters. -/
def noQ (s : String) : Bool := s.data.all (· ≠ '?')

/-- A bound JS value: an integer, a string, or `undefined`. -/
inductive Val
  | i : Int → Val
  | s : String → Val
  | undefV
deriving Repr, DecidableEq

/-- Rendering of a bound value as SQL text, used by the specification-side
inline compilation that makes "the i-th placeholder is bound by `params[i]`"
precise. -/
def renderVal : Val → String
  | .i n => toString n
  | .s st => st
  | .undefV => "undefined"

/-- Substitute the `?` placeholders of a character list, left to right, by the
rendered parameter values; replacement text is never rescanned. -/
def substQL : List Char → List Val → List Char
  | [], _ => []
  | c :: rest, ps =>
    if c = '?' then
      match ps with
      | [] => c :: substQL rest []
      | p :: ps' => (renderVal p).data ++ substQL rest ps'
    else c :: substQL rest ps

/-- A result row, as the driver returns it: column name to value. -/
def Row : Type := List (String × Val)

instance : DecidableEq Row := inferInstanceAs (DecidableEq (List (String × Val)))

/-- Model of the JS property access `row[field]`: `undefined` when absent. -/
def rowLookup (r : Row) (k : String) : Val :=
  match r.find? (fun kv => kv.1 = k) with
  | some kv => kv.2
  | none => .undefV

/-! ### MySQL driver (src/drivers/MySQLDriver.js) -/

/-- Backtick-quote one identifier part, doubling embedded backticks. -/
def escTick (s : String) : String :=
  ⟨'`' :: (charReplaceL '`' ['`', '`'] s.data ++ ['`'])⟩

/-- `MySQLDriver.escapeIdentifier`: destructures the first two parts of
`identifier.split('.')`; when both are non-empty it quotes them separately
(discarding any further parts, as the JS destructuring does), otherwise it
quotes the whole identifier. -/
def mysqlEscapeIdentifier (identifier : String) : String :=
  let parts := (splitCh '.' identifier.data).map (fun p => (⟨p⟩ : String))
  let table := parts.getD 0 ""
  let field := parts.getD 1 ""
  if table ≠ "" ∧ field ≠ "" then escTick table ++ "." ++ escTick field
  else escTick identifier

/-- `MySQLDriver.getLimitSyntax`. -/
def mysqlLimitSyntax (limit offset : Int) : String :=
  if offset > 0 then "LIMIT " ++ toString offset ++ ", " ++ toString limit
  else "LIMIT " ++ toString limit

/-! ### PostgreSQL driver (src/drivers/PostgreSQLDriver.js) -/

/-- Double-quote one identifier part, doubling embedded double quotes. -/
def pgQuote (s : String) : String :=
  ⟨'"' :: (charReplaceL '"' ['"', '"'] s.data ++ ['"'])⟩

/-- The `/^[a-zA-Z_]/` test of `_validateIdentifier`. -/
def pgStartsOk (l : List Char) : Bool :=
  match l with
  | c :: _ => c.isAlpha || c = '_'
  | [] => false

/-- Membership in the `[a-zA-Z0-9_$]` character class. -/
def pgCharOk (c : Char) : Bool := c.isAlpha || c.isDigit || c = '_' || c = '$'

/-- `PostgreSQLDriver._validateIdentifier`: at most 63 characters, starting
with an ASCII letter or underscore, all characters in `[a-zA-Z0-9_$]`. -/
def pgValidateIdentifier (id : String) : Except String Unit :=
  if id.length > 63 then
    .error ("Nome de identificador muito longo (máximo 63 caracteres): " ++ id)
  else if ¬ pgStartsOk id.data then
    .error ("Identificador deve começar com letra ou underscore: " ++ id)
  else if ¬ id.data.all pgCharOk then
    .error ("Identificador contém caracteres inválidos: " ++ id)
  else .ok ()

/-- The `parts.forEach(part => this._validateIdentifier(part))` loop: the first
invalid part throws. -/
def pgValidateAll : List String → Except String Unit
  | [] => .ok ()
  | p :: ps =>
    match pgValidateIdentifier p with
    | .error e => .error e
    | .ok () => pgValidateAll ps

/-- `PostgreSQLDriver.escapeIdentifier` (the prepared-statement cache is
semantically transparent and omitted): rejects the empty identifier; an
identifier containing `.` has each part validated and quoted; otherwise the
whole identifier is validated and quoted. -/
def pgEscapeIdentifier (identifier : String) : Except String String :=
  if identifier = "" then .error "Identifier não pode ser vazio"
  else if strContains identifier '.' then
    let parts := (splitCh '.' identifier.data).map (fun p => (⟨p⟩ : String))
    match pgValidateAll parts with
    | .error e => .error e
    | .ok () => .ok (joinSep "." (parts.map pgQuote))
  else
    match pgValidateIdentifier identifier with
    | .error e => .error e
    | .ok () => .ok (pgQuote identifier)

/-- `PostgreSQLDriver.getLimitSyntax`: rejects negative limit or offset. -/
def pgLimitSyntax (limit offset : Int) : Except String String :=
  if limit < 0 then .error "LIMIT deve ser um número não negativo"
  else if offset < 0 then .error "OFFSET deve ser um número não negativo"
  else .ok ("LIMIT " ++ toString limit ++ " OFFSET " ++ toString offset)

/-! ### Builder state (V1 `QueryBuilder.reset`, src/unnamed/part_001 lines 27-42) -/

/-- The mutable state of a V1 `QueryBuilder`, with the default values
installed by `reset()`. -/
structure BState where
  selectFields : List String := ["*"]
  fromTable : String := ""
  joinClauses : List String := []
  whereClauses : List String := []
  groupByFields : List String := []
  havingClauses : List String := []
  orderByFields : List String := []
  limitValue : Option Int := none
  offsetValue : Option Int := none
  distinctFlag : Bool := false
  params : List Val := []
  updateData : Option (List (String × Val)) := none
  lastQuery : Option (String × List Val) := none
deriving Repr, DecidableEq

/-- The state produced by `reset()` (also the state of a fresh builder). -/
def initState : BState := {}

/-! ### V1 clause-accumulating methods (src/unnamed/part_001)

The JS methods dispatch on the runtime shape of their arguments; each shape is
modelled by a separate Lean function (`...Val` for a string field with a
non-null value, `...Obj` for an object argument, `...Raw` for a string field
with the `value = null` default).  `esc` is the driver's `escapeIdentifier`;
the MySQL driver's version is total. -/

/-- `select(fields)` with a string argument. -/
def selectStr (fields : String) (s : BState) : BState :=
  { s with selectFields := if fields = "*" then ["*"] else [fields] }

/-- `select(fields)` with an array argument: stored verbatim, unescaped. -/
def selectList (fields : List String) (s : BState) : BState :=
  { s with selectFields := fields }

/-- `from(table)` when `config.driver` is not `'postgres'`. -/
def fromMysql (esc : String → String) (table : String) (s : BState) : BState :=
  { s with fromTable := esc table }

/-- `from(table)` when `config.driver === 'postgres'` (V1): an unqualified
name is prefixed with the driver schema before escaping; a name containing
`.` is escaped as given. -/
def fromPG (schema table : String) (s : BState) : Except String BState :=
  if ¬ strContains table '.' then
    match pgEscapeIdentifier (schema ++ "." ++ table) with
    | .error e => .error e
    | .ok t => .ok { s with fromTable := t }
  else
    match pgEscapeIdentifier table with
    | .error e => .error e
    | .ok t => .ok { s with fromTable := t }

/-- `join(table, condition, type)`: the condition is embedded raw. -/
def joinClause (esc : String → String) (table condition type : String) (s : BState) : BState :=
  { s with joinClauses := s.joinClauses ++ [type ++ " JOIN " ++ esc table ++ " ON " ++ condition] }

/-- `where(field, value, operator)` with a string field and non-null value. -/
def whereVal (esc : String → String) (field : String) (value : Val) (op : String)
    (s : BState) : BState :=
  if s.whereClauses.length > 0 then
    { s with whereClauses := s.whereClauses ++ ["AND " ++ esc field ++ " " ++ op ++ " ?"],
             params := s.params ++ [value] }
  else
    { s with whereClauses := s.whereClauses ++ [esc field ++ " " ++ op ++ " ?"],
             params := s.params ++ [value] }

/-- One `Object.entries(field).forEach` iteration of the object form of
`where`. -/
def whereObjStep (esc : String → String) (kv : String × Val) (s : BState) : BState :=
  if s.whereClauses.length > 0 then
    { s with whereClauses := s.whereClauses ++ ["AND " ++ esc kv.1 ++ " = ?"],
             params := s.params ++ [kv.2] }
  else
    { s with whereClauses := s.whereClauses ++ [esc kv.1 ++ " = ?"],
             params := s.params ++ [kv.2] }

/-- `where(field)` with an object argument. -/
def whereObj (esc : String → String) (kvs : List (String × Val)) (s : BState) : BState :=
  kvs.foldl (fun s kv => whereObjStep esc kv s) s

/-- `where(field)` with a string field and the `value = null` default: the
raw condition string is appended unescaped. -/
def whereRaw (field : String) (s : BState) : BState :=
  if s.whereClauses.length > 0 then
    { s with whereClauses := s.whereClauses ++ ["AND " ++ field] }
  else
    { s with whereClauses := s.whereClauses ++ [field] }

/-- `orWhere(field, value, operator)` with a string field and non-null value;
with no prior WHERE clause it degrades to `where`. -/
def orWhereVal (esc : String → String) (field : String) (value : Val) (op : String)
    (s : BState) : BState :=
  if s.whereClauses.length = 0 then whereVal esc field value op s
  else
    { s with whereClauses := s.whereClauses ++ ["OR " ++ esc field ++ " " ++ op ++ " ?"],
             params := s.params ++ [value] }

/-- `orWhere(field)` with an object argument. -/
def orWhereObj (esc : String → String) (kvs : List (String × Val)) (s : BState) : BState :=
  if s.whereClauses.length = 0 then whereObj esc kvs s
  else
    let conditions := kvs.map (fun kv => esc kv.1 ++ " = ?")
    { s with whereClauses := s.whereClauses ++ ["OR (" ++ joinSep " AND " conditions ++ ")"],
             params := s.params ++ kvs.map (·.2) }

/-- `orWhere(field)` with a raw condition string. -/
def orWhereRaw (field : String) (s : BState) : BState :=
  if s.whereClauses.length = 0 then whereRaw field s
  else { s with whereClauses := s.whereClauses ++ ["OR " ++ field] }

/-- `whereIn(field, values)`: throws on an empty array. -/
def whereIn (esc : String → String) (field : String) (values : List Val)
    (s : BState) : Except String BState :=
  if values = [] then .error "whereIn requer um array não vazio"
  else .ok { s with
    whereClauses := s.whereClauses ++
      [esc field ++ " IN (" ++ joinSep ", " (values.map fun _ => "?") ++ ")"],
    params := s.params ++ values }

/-- `whereNotIn(field, values)`: throws on an empty array. -/
def whereNotIn (esc : String → String) (field : String) (values : List Val)
    (s : BState) : Except String BState :=
  if values = [] then .error "whereNotIn requer um array não vazio"
  else .ok { s with
    whereClauses := s.whereClauses ++
      [esc field ++ " NOT IN (" ++ joinSep ", " (values.map fun _ => "?") ++ ")"],
    params := s.params ++ values }

/-- `whereLike(field, value)`: V1 appends the fragment with no connector. -/
def whereLike (esc : String → String) (field : String) (value : Val) (s : BState) : BState :=
  { s with whereClauses := s.whereClauses ++ [esc field ++ " LIKE ?"],
           params := s.params ++ [value] }

/-- `whereNotLike(field, value)`: V1 appends the fragment with no connector. -/
def whereNotLike (esc : String → String) (field : String) (value : Val) (s : BState) : BState :=
  { s with whereClauses := s.whereClauses ++ [esc field ++ " NOT LIKE ?"],
           params := s.params ++ [value] }

/-- `having(field, value, operator)` with a string field and non-null value
(V1 `having` never emits a connector). -/
def havingVal (esc : String → String) (field : String) (value : Val) (op : String)
    (s : BState) : BState :=
  { s with havingClauses := s.havingClauses ++ [esc field ++ " " ++ op ++ " ?"],
           params := s.params ++ [value] }

/-- One iteration of the object form of `having`. -/
def havingObjStep (esc : String → String) (kv : String × Val) (s : BState) : BState :=
  { s with havingClauses := s.havingClauses ++ [esc kv.1 ++ " = ?"],
           params := s.params ++ [kv.2] }

/-- `having(field)` with an object argument. -/
def havingObj (esc : String → String) (kvs : List (String × Val)) (s : BState) : BState :=
  kvs.foldl (fun s kv => havingObjStep esc kv s) s

/-- `having(field)` with a raw condition string. -/
def havingRaw (field : String) (s : BState) : BState :=
  { s with havingClauses := s.havingClauses ++ [field] }

/-- `orHaving(field, value, operator)` with a string field and value; with no
prior HAVING clause it degrades to `having`. -/
def orHavingVal (esc : String → String) (field : String) (value : Val) (op : String)
    (s : BState) : BState :=
  if s.havingClauses.length = 0 then havingVal esc field value op s
  else
    { s with havingClauses := s.havingClauses ++ ["OR " ++ esc field ++ " " ++ op ++ " ?"],
             params := s.params ++ [value] }

/-- `orHaving(field)` with an object argument. -/
def orHavingObj (esc : String → String) (kvs : List (String × Val)) (s : BState) : BState :=
  if s.havingClauses.length = 0 then havingObj esc kvs s
  else
    let conditions := kvs.map (fun kv => esc kv.1 ++ " = ?")
    { s with havingClauses := s.havingClauses ++ ["OR (" ++ joinSep " AND " conditions ++ ")"],
             params := s.params ++ kvs.map (·.2) }

/-- `orHaving(field)` with a raw condition string. -/
def orHavingRaw (field : String) (s : BState) : BState :=
  if s.havingClauses.length = 0 then havingRaw field s
  else { s with havingClauses := s.havingClauses ++ ["OR " ++ field] }

/-- `groupBy(fields)` with a string argument. -/
def groupByStr (esc : String → String) (field : String) (s : BState) : BState :=
  { s with groupByFields := s.groupByFields ++ [esc field] }

/-- `groupBy(fields)` with an array argument. -/
def groupByList (esc : String → String) (fields : List String) (s : BState) : BState :=
  { s with groupByFields := s.groupByFields ++ fields.map esc }

/-- `orderBy(field, direction)`: validates the direction. -/
def orderBy (esc : String → String) (field direction : String) (s : BState) :
    Except String BState :=
  if jsToUpper direction = "ASC" ∨ jsToUpper direction = "DESC" then
    .ok { s with orderByFields := s.orderByFields ++ [esc field ++ " " ++ jsToUpper direction] }
  else .error "Direção deve ser ASC ou DESC"

/-- `orderByRandom()`. -/
def orderByRandom (randomFn : String) (s : BState) : BState :=
  { s with orderByFields := s.orderByFields ++ [randomFn] }

/-- `limit(count, offset)`. -/
def limitFn (count : Int) (offset : Option Int) (s : BState) : BState :=
  let s := { s with limitValue := some count }
  match offset with
  | some o => { s with offsetValue := some o }
  | none => s

/-- `offset(count)`. -/
def offsetFn (count : Int) (s : BState) : BState :=
  { s with offsetValue := some count }

/-- `distinct()`. -/
def distinctFn (s : BState) : BState := { s with distinctFlag := true }

/-- `buildSelectQuery()` (V1, src/unnamed/part_001 lines 286-324),
parameterized by the driver's `getLimitSyntax` (the MySQL version is total). -/
def buildSelect (ls : Int → Int → String) (s : BState) : String :=
  let sql := "SELECT "
  let sql := if s.distinctFlag then sql ++ "DISTINCT " else sql
  let sql := sql ++ joinSep ", " s.selectFields
  let sql := if s.fromTable ≠ "" then sql ++ " FROM " ++ s.fromTable else sql
  let sql := if s.joinClauses.length > 0 then sql ++ " " ++ joinSep " " s.joinClauses else sql
  let sql := if s.whereClauses.length > 0 then sql ++ " WHERE " ++ joinSep " " s.whereClauses else sql
  let sql := if s.groupByFields.length > 0 then sql ++ " GROUP BY " ++ joinSep ", " s.groupByFields else sql
  let sql := if s.havingClauses.length > 0 then sql ++ " HAVING " ++ joinSep " " s.havingClauses else sql
  let sql := if s.orderByFields.length > 0 then sql ++ " ORDER BY " ++ joinSep ", " s.orderByFields else sql
  if s.limitValue.isSome then sql ++ " " ++ ls (s.limitValue.getD 0) (s.offsetValue.getD 0) else sql

/-! ### V1 terminal methods (src/unnamed/part_001 lines 326-496)

Each terminal method takes the driver's response to its single
`driver.execute` call as an explicit argument and returns the call result
together with the builder state left behind.  `get` (and everything routed
through it) records `lastQuery` via `executeQuery` before awaiting the driver;
`insert`/`insertBatch`/`replace`/`update`/`delete` call `driver.execute`
directly and never touch `lastQuery`. -/

/-- `get()`: compiles, records `lastQuery`, executes, and resets only when the
driver call succeeds; a thrown driver error propagates with the accumulated
state left in place. -/
def getQ (res : Except String (List Row)) (s : BState) :
    Except String (List Row) × BState :=
  let sql := buildSelect mysqlLimitSyntax s
  let s1 := { s with lastQuery := some (sql, s.params) }
  match res with
  | .ok rows => (.ok rows, initState)
  | .error e => (.error e, s1)

/-- `getWhere(table, where)`: `from(table).where(where).get()`. -/
def getWhereQ (esc : String → String) (table : String) (w : List (String × Val))
    (res : Except String (List Row)) (s : BState) : Except String (List Row) × BState :=
  getQ res (whereObj esc w (fromMysql esc table s))

/-- `first()`: `limit(1)` then `get()`; returns the first row or `null`. -/
def firstQ (res : Except String (List Row)) (s : BState) :
    Except String (Option Row) × BState :=
  match getQ res (limitFn 1 none s) with
  | (.ok rows, s2) => (.ok rows.head?, s2)
  | (.error e, s2) => (.error e, s2)

/-- `count()`: swaps `selectFields` for a COUNT aggregate, runs `get()`
(which resets on success), then restores the saved `selectFields` — so after
a successful `count` the builder does not return to the default `['*']`.
Reading `result[0].count` from an empty row set throws after the restore. -/
def countQry (res : Except String (List Row)) (s : BState) :
    Except String Val × BState :=
  let originalSelect := s.selectFields
  let s1 := { s with selectFields := ["COUNT(*) as count"] }
  match getQ res s1 with
  | (.ok rows, s2) =>
    let s3 := { s2 with selectFields := originalSelect }
    match rows with
    | [] => (.error "TypeError: result[0] is undefined", s3)
    | r :: _ => (.ok (rowLookup r "count"), s3)
  | (.error e, s2) => (.error e, s2)

/-- `insert(table, data)` with a single row object (non-postgres config, so
no `RETURNING *`); calls `driver.execute` directly. -/
def insertQ (esc : String → String) (table : String) (data : Row)
    (res : Except String (List Row)) (s : BState) : Except String (List Row) × BState :=
  let fields := data.map (·.1)
  let escapedFields := fields.map esc
  let placeholders := joinSep ", " (fields.map fun _ => "?")
  let _sql := "INSERT INTO " ++ esc table ++ " (" ++ joinSep ", " escapedFields ++
    ")\n                   VALUES (" ++ placeholders ++ ")"
  match res with
  | .ok r => (.ok r, initState)
  | .error e => (.error e, s)

/-- The SQL text and flattened value list that `insertBatch(table, data)`
hands to `driver.execute`: the field set is taken from the first row only,
every row is projected onto those fields (`row[field]` is `undefined` for a
missing key), and no cross-row validation is performed. -/
def insertBatchCall (esc : String → String) (table : String) (data : List Row) :
    Except String (String × List Val) :=
  match data with
  | [] => .error "insertBatch requer um array não vazio"
  | r0 :: _ =>
    let fields := r0.map (·.1)
    let escapedFields := fields.map esc
    let values := data.flatMap (fun row => fields.map (fun f => rowLookup row f))
    let placeholders := data.map (fun _ => "(" ++ joinSep ", " (fields.map fun _ => "?") ++ ")")
    .ok ("INSERT INTO " ++ esc table ++ " (" ++ joinSep ", " escapedFields ++
      ")\n                     VALUES " ++ joinSep ", " placeholders, values)

/-- `insertBatch(table, data)`: state effect of the full call. -/
def insertBatchQ (esc : String → String) (table : String) (data : List Row)
    (res : Except String (List Row)) (s : BState) : Except String (List Row) × BState :=
  match insertBatchCall esc table data with
  | .error e => (.error e, s)
  | .ok _ =>
    match res with
    | .ok r => (.ok r, initState)
    | .error e => (.error e, s)

/-- `replace(table, data)`. -/
def replaceQ (esc : String → String) (table : String) (data : Row)
    (res : Except String (List Row)) (s : BState) : Except String (List Row) × BState :=
  let fields := data.map (·.1)
  let escapedFields := fields.map esc
  let placeholders := joinSep ", " (fields.map fun _ => "?")
  let _sql := "REPLACE INTO " ++ esc table ++ " (" ++ joinSep ", " escapedFields ++
    ")\n                     VALUES (" ++ placeholders ++ ")"
  match res with
  | .ok r => (.ok r, initState)
  | .error e => (.error e, s)

/-- `update(table, data, where)`: validates the effective update data before
mutating state, applies the optional `where` object, then executes. -/
def updateQ (esc : String → String) (table : String) (dataOpt : Option Row)
    (whereOpt : Option (List (String × Val))) (res : Except String (List Row))
    (s : BState) : Except String (List Row) × BState :=
  let updateData := match dataOpt with
    | some d => some d
    | none => s.updateData
  match updateData with
  | none => (.error "Dados para atualização são obrigatórios", s)
  | some d =>
    if d.length = 0 then (.error "Dados para atualização são obrigatórios", s)
    else
      let s1 := match whereOpt with
        | some w => whereObj esc w s
        | none => s
      let setClauses := d.map (fun kv => esc kv.1 ++ " = ?")
      let _sql := "UPDATE " ++ esc table ++ "\n                   SET " ++
        joinSep ", " setClauses ++
        (if s1.whereClauses.length > 0 then " WHERE " ++ joinSep " " s1.whereClauses else "")
      match res with
      | .ok r => (.ok r, initState)
      | .error e => (.error e, s1)

/-- `delete(table, where)`: sets `fromTable` when a (truthy) table is given,
applies the optional `where` object, requires a non-empty `fromTable`. -/
def deleteQ (esc : String → String) (tableOpt : Option String)
    (whereOpt : Option (List (String × Val))) (res : Except String (List Row))
    (s : BState) : Except String (List Row) × BState :=
  let s1 := match tableOpt with
    | some t => if t ≠ "" then { s with fromTable := esc t } else s
    | none => s
  let s2 := match whereOpt with
    | some w => whereObj esc w s1
    | none => s1
  if s2.fromTable = "" then (.error "Tabela é obrigatória para operação DELETE", s2)
  else
    match res with
    | .ok r => (.ok r, initState)
    | .error e => (.error e, s2)

/-- `getLastQuery()`. -/
def getLastQuery (s : BState) : Option (String × List Val) := s.lastQuery

/-! ### C5: batch insert (V1 `insertBatch` vs the enhanced revision) -/

/-- The enhanced revision's `insertBatch` (embedded in `CHANGELOG.md`): it
validates the table name, requires a non-empty batch with a non-empty first
row, and throws `Todas as linhas do batch devem ter os mesmos campos` as soon
as a row's key list differs from the first row's, before `executeQuery` is
reached; otherwise it builds the same SQL and flattened values as V1. -/
def insertBatchCallV2 (esc : String → String) (table : String) (data : List Row) :
    Except String (String × List Val) :=
  if jsTrim table = "" then
    .error "Nome da tabela é obrigatório e deve ser uma string não vazia"
  else
    match data with
    | [] => .error "insertBatch requer um array não vazio"
    | r0 :: _ =>
      let fields := r0.map (·.1)
      if fields.length = 0 then .error "Primeira linha do batch não pode estar vazia"
      else if data.all (fun row => row.map (·.1) = fields) then
        let escapedFields := fields.map esc
        let values := data.flatMap (fun row => fields.map (fun f => rowLookup row f))
        let placeholders := data.map (fun _ => "(" ++ joinSep ", " (fields.map fun _ => "?") ++ ")")
        .ok ("INSERT INTO " ++ esc table ++ " (" ++ joinSep ", " escapedFields ++
          ")\n                     VALUES " ++ joinSep ", " placeholders, values)
      else .error "Todas as linhas do batch devem ter os mesmos campos"

/-! ### Clause-accumulating call sequences (for the placeholder/params invariant)

`QCall` enumerates one call to each method named by the invariant —
`where`, `orWhere`, `whereIn`, `whereNotIn`, `whereLike`, `whereNotLike`,
`having`, `orHaving` — with each JS argument shape a separate constructor. -/

/-- One clause-accumulating builder call. -/
inductive QCall
  | wVal (f : String) (v : Val) (op : String)
  | wObj (kvs : List (String × Val))
  | wRaw (cond : String)
  | owVal (f : String) (v : Val) (op : String)
  | owObj (kvs : List (String × Val))
  | owRaw (cond : String)
  | wIn (f : String) (vs : List Val)
  | wNotIn (f : String) (vs : List Val)
  | wLike (f : String) (v : Val)
  | wNotLike (f : String) (v : Val)
  | hVal (f : String) (v : Val) (op : String)
  | hObj (kvs : List (String × Val))
  | hRaw (cond : String)
  | ohVal (f : String) (v : Val) (op : String)
  | ohObj (kvs : List (String × Val))
  | ohRaw (cond : String)

/-- Dispatch of one call to the V1 builder methods. -/
def stepQ (esc : String → String) : QCall → BState → Except String BState
  | .wVal f v op, s => .ok (whereVal esc f v op s)
  | .wObj kvs, s => .ok (whereObj esc kvs s)
  | .wRaw c, s => .ok (whereRaw c s)
  | .owVal f v op, s => .ok (orWhereVal esc f v op s)
  | .owObj kvs, s => .ok (orWhereObj esc kvs s)
  | .owRaw c, s => .ok (orWhereRaw c s)
  | .wIn f vs, s => whereIn esc f vs s
  | .wNotIn f vs, s => whereNotIn esc f vs s
  | .wLike f v, s => .ok (whereLike esc f v s)
  | .wNotLike f v, s => .ok (whereNotLike esc f v s)
  | .hVal f v op, s => .ok (havingVal esc f v op s)
  | .hObj kvs, s => .ok (havingObj esc kvs s)
  | .hRaw c, s => .ok (havingRaw c s)
  | .ohVal f v op, s => .ok (orHavingVal esc f v op s)
  | .ohObj kvs, s => .ok (orHavingObj esc kvs s)
  | .ohRaw c, s => .ok (orHavingRaw c s)

/-- Running a whole call sequence; a thrown error aborts the chain. -/
def runCalls (esc : String → String) : List QCall → BState → Except String BState
  | [], s => .ok s
  | c :: cs, s =>
    match stepQ esc c s with
    | .error e => .error e
    | .ok s1 => runCalls esc cs s1

/-! #### Inline compilation

The specification-side mirror of each method: identical in every respect
except that the rendered bound value is written where the method emits `?`,
and nothing is pushed to `params`.  Substituting `params` into the compiled
SQL left to right must reproduce this inline compilation — that is the
"i-th placeholder is bound by `params[i]`" property made precise. -/

/-- Inline mirror of the valued `where`. -/
def whereValI (esc : String → String) (field : String) (value : Val) (op : String)
    (s : BState) : BState :=
  if s.whereClauses.length > 0 then
    { s with whereClauses :=
        s.whereClauses ++ ["AND " ++ esc field ++ " " ++ op ++ " " ++ renderVal value] }
  else
    { s with whereClauses :=
        s.whereClauses ++ [esc field ++ " " ++ op ++ " " ++ renderVal value] }

/-- Inline mirror of one object-form `where` entry. -/
def whereObjStepI (esc : String → String) (kv : String × Val) (s : BState) : BState :=
  if s.whereClauses.length > 0 then
    { s with whereClauses := s.whereClauses ++ ["AND " ++ esc kv.1 ++ " = " ++ renderVal kv.2] }
  else
    { s with whereClauses := s.whereClauses ++ [esc kv.1 ++ " = " ++ renderVal kv.2] }

/-- Inline mirror of the object-form `where`. -/
def whereObjI (esc : String → String) (kvs : List (String × Val)) (s : BState) : BState :=
  kvs.foldl (fun s kv => whereObjStepI esc kv s) s

/-- Inline mirror of the valued `orWhere`. -/
def orWhereValI (esc : String → String) (field : String) (value : Val) (op : String)
    (s : BState) : BState :=
  if s.whereClauses.length = 0 then whereValI esc field value op s
  else
    { s with whereClauses :=
        s.whereClauses ++ ["OR " ++ esc field ++ " " ++ op ++ " " ++ renderVal value] }

/-- Inline mirror of the object-form `orWhere`. -/
def orWhereObjI (esc : String → String) (kvs : List (String × Val)) (s : BState) : BState :=
  if s.whereClauses.length = 0 then whereObjI esc kvs s
  else
    let conditions := kvs.map (fun kv => esc kv.1 ++ " = " ++ renderVal kv.2)
    { s with whereClauses := s.whereClauses ++ ["OR (" ++ joinSep " AND " conditions ++ ")"] }

/-- Inline mirror of `whereIn`. -/
def whereInI (esc : String → String) (field : String) (values : List Val)
    (s : BState) : Except String BState :=
  if values = [] then .error "whereIn requer um array não vazio"
  else .ok { s with
    whereClauses := s.whereClauses ++
      [esc field ++ " IN (" ++ joinSep ", " (values.map renderVal) ++ ")"] }

/-- Inline mirror of `whereNotIn`. -/
def whereNotInI (esc : String → String) (field : String) (values : List Val)
    (s : BState) : Except String BState :=
  if values = [] then .error "whereNotIn requer um array não vazio"
  else .ok { s with
    whereClauses := s.whereClauses ++
      [esc field ++ " NOT IN (" ++ joinSep ", " (values.map renderVal) ++ ")"] }

/-- Inline mirror of `whereLike`. -/
def whereLikeI (esc : String → String) (field : String) (value : Val) (s : BState) : BState :=
  { s with whereClauses := s.whereClauses ++ [esc field ++ " LIKE " ++ renderVal value] }

/-- Inline mirror of `whereNotLike`. -/
def whereNotLikeI (esc : String → String) (field : String) (value : Val) (s : BState) : BState :=
  { s with whereClauses := s.whereClauses ++ [esc field ++ " NOT LIKE " ++ renderVal value] }

/-- Inline mirror of the valued `having`. -/
def havingValI (esc : String → String) (field : String) (value : Val) (op : String)
    (s : BState) : BState :=
  { s with havingClauses := s.havingClauses ++ [esc field ++ " " ++ op ++ " " ++ renderVal value] }

/-- Inline mirror of one object-form `having` entry. -/
def havingObjStepI (esc : String → String) (kv : String × Val) (s : BState) : BState :=
  { s with havingClauses := s.havingClauses ++ [esc kv.1 ++ " = " ++ renderVal kv.2] }

/-- Inline mirror of the object-form `having`. -/
def havingObjI (esc : String → String) (kvs : List (String × Val)) (s : BState) : BState :=
  kvs.foldl (fun s kv => havingObjStepI esc kv s) s

/-- Inline mirror of the valued `orHaving`. -/
def orHavingValI (esc : String → String) (field : String) (value : Val) (op : String)
    (s : BState) : BState :=
  if s.havingClauses.length = 0 then havingValI esc field value op s
  else
    { s with havingClauses :=
        s.havingClauses ++ ["OR " ++ esc field ++ " " ++ op ++ " " ++ renderVal value] }

/-- Inline mirror of the object-form `orHaving`. -/
def orHavingObjI (esc : String → String) (kvs : List (String × Val)) (s : BState) : BState :=
  if s.havingClauses.length = 0 then havingObjI esc kvs s
  else
    let conditions := kvs.map (fun kv => esc kv.1 ++ " = " ++ renderVal kv.2)
    { s with havingClauses := s.havingClauses ++ ["OR (" ++ joinSep " AND " conditions ++ ")"] }

/-- Inline dispatch (the raw forms carry no value and are shared with the
normal semantics). -/
def stepQI (esc : String → String) : QCall → BState → Except String BState
  | .wVal f v op, s => .ok (whereValI esc f v op s)
  | .wObj kvs, s => .ok (whereObjI esc kvs s)
  | .wRaw c, s => .ok (whereRaw c s)
  | .owVal f v op, s => .ok (orWhereValI esc f v op s)
  | .owObj kvs, s => .ok (orWhereObjI esc kvs s)
  | .owRaw c, s => .ok (orWhereRaw c s)
  | .wIn f vs, s => whereInI esc f vs s
  | .wNotIn f vs, s => whereNotInI esc f vs s
  | .wLike f v, s => .ok (whereLikeI esc f v s)
  | .wNotLike f v, s => .ok (whereNotLikeI esc f v s)
  | .hVal f v op, s => .ok (havingValI esc f v op s)
  | .hObj kvs, s => .ok (havingObjI esc kvs s)
  | .hRaw c, s => .ok (havingRaw c s)
  | .ohVal f v op, s => .ok (orHavingValI esc f v op s)
  | .ohObj kvs, s => .ok (orHavingObjI esc kvs s)
  | .ohRaw c, s => .ok (orHavingRaw c s)

/-- Running the inline mirror of a call sequence. -/
def runCallsI (esc : String → String) : List QCall → BState → Except String BState
  | [], s => .ok s
  | c :: cs, s =>
    match stepQI esc c s with
    | .error e => .error e
    | .ok s1 => runCallsI esc cs s1

/-- A call whose user-supplied strings (field names, object keys, operators,
raw condition strings) contain no `?` character. -/
def goodCall : QCall → Bool
  | .wVal f _ op => noQ f && noQ op
  | .wObj kvs => kvs.all (fun kv => noQ kv.1)
  | .wRaw c => noQ c
  | .owVal f _ op => noQ f && noQ op
  | .owObj kvs => kvs.all (fun kv => noQ kv.1)
  | .owRaw c => noQ c
  | .wIn f _ => noQ f
  | .wNotIn f _ => noQ f
  | .wLike f _ => noQ f
  | .wNotLike f _ => noQ f
  | .hVal f _ op => noQ f && noQ op
  | .hObj kvs => kvs.all (fun kv => noQ kv.1)
  | .hRaw c => noQ c
  | .ohVal f _ op => noQ f && noQ op
  | .ohObj kvs => kvs.all (fun kv => noQ kv.1)
  | .ohRaw c => noQ c

/-- Calls that touch `havingClauses` (the rest touch `whereClauses`). -/
def isHavingCall : QCall → Bool
  | .hVal _ _ _ => true
  | .hObj _ => true
  | .hRaw _ => true
  | .ohVal _ _ _ => true
  | .ohObj _ => true
  | .ohRaw _ => true
  | _ => false

/-- A call sequence in which no where-family call follows a having-family
call (SQL emits the whole WHERE block before the HAVING block, so this is
what keeps `params` in placeholder order across the two families). -/
def phasedOk (cs : List QCall) : Bool :=
  (cs.dropWhile (fun c => !isHavingCall c)).all isHavingCall

/-- Total `?` count of a clause list. -/
def sumCount (l : List String) : Nat := (l.map (fun f => countQL f.data)).sum

/-- The builder-state fields that the sixteen calls never touch, at their
fresh-builder defaults. -/
def coreDefaults (s : BState) : Prop :=
  s.selectFields = ["*"] ∧ s.fromTable = "" ∧ s.joinClauses = [] ∧
    s.groupByFields = [] ∧ s.orderByFields = [] ∧ s.limitValue = none ∧
    s.distinctFlag = false

/-- The count form of the load-bearing invariant. -/
def countInv (s : BState) : Prop :=
  sumCount s.whereClauses + sumCount s.havingClauses = s.params.length

/-- Relation between a builder state and its inline mirror while only
where-family calls have run. -/
def alignInv1 (s t : BState) : Prop :=
  coreDefaults s ∧ coreDefaults t ∧
    s.havingClauses = [] ∧ t.havingClauses = [] ∧ t.params = [] ∧
    s.whereClauses.length = t.whereClauses.length ∧
    countQL (joinSep " " s.whereClauses).data = s.params.length ∧
    substQL (joinSep " " s.whereClauses).data s.params = (joinSep " " t.whereClauses).data

/-- Relation between a builder state and its inline mirror once
having-family calls may also have run: `params` splits into the WHERE-aligned
prefix and the HAVING-aligned suffix. -/
def alignInv2 (s t : BState) : Prop :=
  coreDefaults s ∧ coreDefaults t ∧ t.params = [] ∧
    s.whereClauses.length = t.whereClauses.length ∧
    s.havingClauses.length = t.havingClauses.length ∧
    ∃ wps hps, s.params = wps ++ hps ∧
      countQL (joinSep " " s.whereClauses).data = wps.length ∧
      substQL (joinSep " " s.whereClauses).data wps = (joinSep " " t.whereClauses).data ∧
      countQL (joinSep " " s.havingClauses).data = hps.length ∧
      substQL (joinSep " " s.havingClauses).data hps = (joinSep " " t.havingClauses).data

/-! ### Enhanced-revision `from` (embedded in `CHANGELOG.md`) -/

/-- The enhanced revision's `from(table)` for the postgres driver type (no
alias): a table name containing no `.`, no space and no `(` is prefixed with
the configured schema; every resulting name still goes through the driver's
`escapeIdentifier` (whose validation rejects spaces and parentheses). -/
def fromPGV2 (schema table : String) (s : BState) : Except String BState :=
  if jsTrim table = "" then
    .error "Nome da tabela é obrigatório e deve ser uma string não vazia"
  else
    let tableName :=
      if ¬ strContains table '.' ∧ ¬ strContains table ' ' ∧ ¬ strContains table '(' then
        schema ++ "." ++ table
      else table
    match pgEscapeIdentifier tableName with
    | .error e => .error e
    | .ok t => .ok { s with fromTable := t }

/-! ### Enhanced-revision WHERE validation (embedded in `CHANGELOG.md`) -/

/-- The `validation` configuration of the enhanced revision
(`enabled: config.validation !== false`, `maxWhereConditions: ... || 50`). -/
structure Validation where
  enabled : Bool
  maxWhereConditions : Nat
deriving Repr, DecidableEq

/-- The default validation configuration. -/
def defaultValidation : Validation := ⟨true, 50⟩

/-- `_validateWhereCount`: a no-op when validation is disabled, otherwise
throws once the accumulated WHERE clause count reaches the ceiling. -/
def validateWhereCount (v : Validation) (s : BState) : Except String Unit :=
  if v.enabled = false then .ok ()
  else if s.whereClauses.length ≥ v.maxWhereConditions then
    .error ("Muitas condições WHERE (máximo: " ++ toString v.maxWhereConditions ++ ")")
  else .ok ()

/-- `_validateOperator`'s list of valid operators. -/
def validOperators : List String :=
  ["=", "!=", "<>", "<", ">", "<=", ">=", "LIKE", "NOT LIKE", "IN", "NOT IN",
   "BETWEEN", "NOT BETWEEN"]

/-- `_validateOperator`. -/
def validateOperator (op : String) : Except String Unit :=
  if validOperators.contains (jsToUpper op) then .ok ()
  else .error ("Operador inválido: " ++ op)

/-- The `value` argument of `_addWhereClause`: `null`, a single value, or an
array (spread into `params`). -/
inductive WVal
  | nullv
  | one : Val → WVal
  | many : List Val → WVal

/-- `_addWhereClause(condition, value)`: prefixes `AND` when clauses already
exist and pushes the value(s). -/
def addWhereClause (condition : String) (value : WVal) (s : BState) : BState :=
  let s1 :=
    if s.whereClauses.length > 0 then
      { s with whereClauses := s.whereClauses ++ ["AND " ++ condition] }
    else { s with whereClauses := s.whereClauses ++ [condition] }
  match value with
  | .nullv => s1
  | .one v => { s1 with params := s1.params ++ [v] }
  | .many vs => { s1 with params := s1.params ++ vs }

/-- The enhanced revision's `where(field, value, operator)` with a string
field and non-null value: `_validateWhereCount`, then `_validateOperator`,
then `_addWhereClause`. -/
def whereValV2 (val : Validation) (esc : String → String) (field : String) (value : Val)
    (op : String) (s : BState) : Except String BState :=
  match validateWhereCount val s with
  | .error e => .error e
  | .ok () =>
    match validateOperator op with
    | .error e => .error e
    | .ok () => .ok (addWhereClause (esc field ++ " " ++ op ++ " ?") (.one value) s)

/-- The enhanced revision's `orWhere(field, value, operator)`: degrades to
`where` on an empty clause list, and otherwise appends with an `OR` connector
without ever calling `_validateWhereCount`. -/
def orWhereValV2 (val : Validation) (esc : String → String) (field : String) (value : Val)
    (op : String) (s : BState) : Except String BState :=
  if s.whereClauses.length = 0 then whereValV2 val esc field value op s
  else
    match validateOperator op with
    | .error e => .error e
    | .ok () => .ok
        { s with whereClauses := s.whereClauses ++ ["OR " ++ esc field ++ " " ++ op ++ " ?"],
                 params := s.params ++ [value] }

/-- The enhanced revision's `having(field, value, operator)` with a string
field and non-null value: validates the operator and appends (with an `AND`
connector after the first clause) — no ceiling of any kind is checked. -/
def havingValV2 (esc : String → String) (field : String) (value : Val) (op : String)
    (s : BState) : Except String BState :=
  match validateOperator op with
  | .error e => .error e
  | .ok () =>
    if s.havingClauses.length > 0 then
      .ok { s with havingClauses := s.havingClauses ++ ["AND " ++ esc field ++ " " ++ op ++ " ?"],
                   params := s.params ++ [value] }
    else
      .ok { s with havingClauses := s.havingClauses ++ [esc field ++ " " ++ op ++ " ?"],
                   params := s.params ++ [value] }

/-! ### Transactions (enhanced revision, embedded in `CHANGELOG.md`) -/

/-- A transaction-control statement sent to the transport. -/
inductive TxStmt
  | begin
  | commit
  | rollback
deriving Repr, DecidableEq

/-- The transaction-related state of the enhanced `QueryBuilder`
(`inTransaction`, `transactionDepth`) together with the trace of
transaction statements issued to the driver. -/
structure TxState where
  inTransaction : Bool := false
  transactionDepth : Int := 0
  trace : List TxStmt := []
deriving Repr, DecidableEq

/-- Modelled from the spec: the driver-level `beginTransaction` primitive is
not among the source files (no driver in `src/` defines it); spec §6 says
transaction statements travel through the execute channel as plain SQL text,
so the primitive is modelled as appending one `BEGIN` to the transport
trace. -/
def driverBegin (t : TxState) : TxState := { t with trace := t.trace ++ [.begin] }

/-- Modelled from the spec: driver-level `commitTransaction`, one `COMMIT`
statement to the transport (see `driverBegin`). -/
def driverCommit (t : TxState) : TxState := { t with trace := t.trace ++ [.commit] }

/-- Modelled from the spec: driver-level `rollbackTransaction`, one
`ROLLBACK` statement to the transport (see `driverBegin`). -/
def driverRollback (t : TxState) : TxState := { t with trace := t.trace ++ [.rollback] }

/-- `QueryBuilder.beginTransaction` (enhanced revision): throws when already
in a transaction, otherwise issues the driver begin and sets the flag. -/
def beginTransactionQB (t : TxState) : Except String TxState :=
  if t.inTransaction then .error "Já existe uma transação iniciada."
  else .ok { driverBegin t with inTransaction := true }

/-- `QueryBuilder.commitTransaction`. -/
def commitTransactionQB (t : TxState) : Except String TxState :=
  if ¬ t.inTransaction then .error "Nenhuma transação está ativa para confirmar."
  else .ok { driverCommit t with inTransaction := false }

/-- `QueryBuilder.rollbackTransaction`. -/
def rollbackTransactionQB (t : TxState) : Except String TxState :=
  if ¬ t.inTransaction then .error "Nenhuma transação está ativa para reverter."
  else .ok { driverRollback t with inTransaction := false }

/-- A transaction callback, as a program: succeed, throw, sequence, or a
nested `transaction(cb)` call. -/
inductive TxProg
  | ret
  | throwErr : String → TxProg
  | seq : TxProg → TxProg → TxProg
  | tx : TxProg → TxProg

/-- The `finally` block of `transaction(callback)`: decrement
`transactionDepth` and clear `inTransaction` at depth 0. -/
def finallyStep (t : TxState) : TxState :=
  let t1 := { t with transactionDepth := t.transactionDepth - 1 }
  if t1.transactionDepth = 0 then { t1 with inTransaction := false } else t1

/-- Execution of a transaction program against the enhanced revision's
`transaction(callback)`: a non-nested call brackets the callback with the
real driver begin and commit/rollback; a nested call runs the callback
directly and re-throws its error. -/
def runTx : TxProg → TxState → Except String Unit × TxState
  | .ret, t => (.ok (), t)
  | .throwErr e, t => (.error e, t)
  | .seq a b, t =>
    match runTx a t with
    | (.ok (), t1) => runTx b t1
    | (.error e, t1) => (.error e, t1)
  | .tx p, t =>
    let isNested := t.inTransaction
    match (if isNested then .ok t else beginTransactionQB t : Except String TxState) with
    | .error e => (.error e, t)
    | .ok t0 =>
      let t1 := { t0 with transactionDepth := t0.transactionDepth + 1 }
      match runTx p t1 with
      | (.ok (), t2) =>
        match (if isNested then .ok t2 else commitTransactionQB t2 : Except String TxState) with
        | .ok t3 => (.ok (), finallyStep t3)
        | .error e => (.error e, finallyStep t2)
      | (.error e, t2) =>
        match (if isNested then .ok t2 else rollbackTransactionQB t2 : Except String TxState) with
        | .ok t3 => (.error e, finallyStep t3)
        | .error e2 => (.error e2, finallyStep t2)

/-- The first error a transaction callback program raises, if any (driver
transaction statements themselves always succeed). -/
def firstErr : TxProg → Option String
  | .ret => none
  | .throwErr e => some e
  | .seq a b =>
    match firstErr a with
    | some e => some e
    | none => firstErr b
  | .tx p => firstErr p

/-- Occurrences of one transaction statement in a transport trace. -/
def countStmt (st : TxStmt) (tr : List TxStmt) : Nat := tr.countP (· = st)

/-! ### Frame lemmas -/

/-- `whereObjStep` only touches `whereClauses` and `params`. -/
theorem whereObjStep_frame (esc : String → String) (kv : String × Val) (s : BState) :
    (whereObjStep esc kv s).fromTable = s.fromTable ∧
      (whereObjStep esc kv s).selectFields = s.selectFields := by
  unfold whereObjStep; split <;> exact ⟨rfl, rfl⟩

/-- `whereObj` only touches `whereClauses` and `params`. -/
theorem whereObj_fromTable (esc : String → String) (kvs : List (String × Val)) (s : BState) :
    (whereObj esc kvs s).fromTable = s.fromTable := by
  induction kvs generalizing s with
  | nil => rfl
  | cons kv kvs ih =>
    show (whereObj esc kvs (whereObjStep esc kv s)).fromTable = _
    rw [ih, (whereObjStep_frame esc kv s).1]

/-- The MySQL escape of any identifier starts with a backtick. -/
theorem mysqlEsc_head (t : String) : ∃ l, (mysqlEscapeIdentifier t).data = '`' :: l := by
  unfold mysqlEscapeIdentifier
  dsimp only
  split
  · exact ⟨_, rfl⟩
  · exact ⟨_, rfl⟩

/-- The MySQL escape of any identifier is a non-empty string. -/
theorem mysqlEsc_ne_empty (t : String) : mysqlEscapeIdentifier t ≠ "" := by
  obtain ⟨l, hl⟩ := mysqlEsc_head t
  intro h
  rw [h] at hl
  exact List.noConfusion hl

/-! ### Claim theorems -/

/-- C2: on a fresh builder, `where('a',1).where('b',2)` compiles the WHERE
clause `` `a` = ? AND `b` = ? `` (second fragment joined by `AND`);
`where('a',1).orWhere('b',2)` compiles `` `a` = ? OR `b` = ? ``; and a lone
`orWhere('a',1)` compiles to plain `` `a` = ? `` with no leading `OR`
(identifiers carry the driver's backtick quoting). -/
theorem c2_connector_correctness :
    buildSelect mysqlLimitSyntax
        (whereVal mysqlEscapeIdentifier "b" (.i 2) "="
          (whereVal mysqlEscapeIdentifier "a" (.i 1) "=" initState)) =
      "SELECT * WHERE `a` = ? AND `b` = ?" ∧
    buildSelect mysqlLimitSyntax
        (orWhereVal mysqlEscapeIdentifier "b" (.i 2) "="
          (whereVal mysqlEscapeIdentifier "a" (.i 1) "=" initState)) =
      "SELECT * WHERE `a` = ? OR `b` = ?" ∧
    buildSelect mysqlLimitSyntax
        (orWhereVal mysqlEscapeIdentifier "a" (.i 1) "=" initState) =
      "SELECT * WHERE `a` = ?" := by
  refine ⟨?_, ?_, ?_⟩ <;> rfl

/-- C10: when `limitValue` is unset, storing an offset changes nothing in the
compiled SELECT — the pagination clause is emitted only when `limitValue` is
non-null, for any driver limit syntax. -/
theorem c10_offset_without_limit (ls : Int → Int → String) (s : BState) (n : Int)
    (h : s.limitValue = none) :
    buildSelect ls (offsetFn n s) = buildSelect ls s ∧
      (offsetFn n s).limitValue = none := by
  constructor
  · simp [buildSelect, offsetFn, h]
  · simp [offsetFn, h]

/-- Witness for C10 at a concrete input. -/
theorem c10_offset_without_limit_witness :
    buildSelect mysqlLimitSyntax (offsetFn 10 initState) =
        buildSelect mysqlLimitSyntax initState ∧
      (offsetFn 10 initState).limitValue = none :=
  c10_offset_without_limit mysqlLimitSyntax initState 10 rfl

/-- C3 counterexample: after a successful `count()` on a builder that had
selected `['x']`, `selectFields` is `['x']`, not the default `['*']`; and
after a failed `get()` the accumulated WHERE clause survives.  Both refute
"state is back at defaults on both the success and the failure path". -/
theorem c3_counterexample_state_survives :
    ((countQry (.ok [[("count", Val.i 5)]]) (selectList ["x"] initState)).2.selectFields = ["x"] ∧
      ¬ (["x"] = ["*"])) ∧
    (getQ (.error "boom")
        (whereVal mysqlEscapeIdentifier "a" (.i 1) "=" initState)).2.whereClauses =
      ["`a` = ?"] := by
  refine ⟨⟨rfl, by decide⟩, rfl⟩

/-- C3 amended: every terminal method resets the builder state on the
success path — except `count()`, which restores the previous `selectFields`
instead of leaving the default — while on the failure path no reset happens:
the state (with `lastQuery` updated, for the select family) survives. -/
theorem c3_amended_reset_on_success_only :
    (∀ s rows, (getQ (.ok rows) s).2 = initState) ∧
    (∀ t w s rows, (getWhereQ mysqlEscapeIdentifier t w (.ok rows) s).2 = initState) ∧
    (∀ s rows, (firstQ (.ok rows) s).2 = initState) ∧
    (∀ s rows, (countQry (.ok rows) s).2 = { initState with selectFields := s.selectFields }) ∧
    (∀ t d s r, (insertQ mysqlEscapeIdentifier t d (.ok r) s).2 = initState) ∧
    (∀ t r0 rs s r, (insertBatchQ mysqlEscapeIdentifier t (r0 :: rs) (.ok r) s).2 = initState) ∧
    (∀ t d s r, (replaceQ mysqlEscapeIdentifier t d (.ok r) s).2 = initState) ∧
    (∀ t d0 ds wo s r,
      (updateQ mysqlEscapeIdentifier t (some (d0 :: ds)) wo (.ok r) s).2 = initState) ∧
    (∀ t wo s r, t ≠ "" →
      (deleteQ mysqlEscapeIdentifier (some t) wo (.ok r) s).2 = initState) ∧
    (∀ s e, (getQ (.error e) s).2 =
      { s with lastQuery := some (buildSelect mysqlLimitSyntax s, s.params) }) := by
  refine ⟨fun s rows => rfl, fun t w s rows => rfl, fun s rows => rfl, ?_,
    fun t d s r => rfl, fun t r0 rs s r => rfl, fun t d s r => rfl,
    fun t d0 ds wo s r => rfl, ?_, fun s e => rfl⟩
  · intro s rows
    cases rows <;> rfl
  · intro t wo s r h
    have hne : mysqlEscapeIdentifier t ≠ "" := mysqlEsc_ne_empty t
    cases wo <;> simp [deleteQ, h, whereObj_fromTable, hne]

/-- Witness for C3 amended (discharges the non-empty-table hypothesis of the
`delete` conjunct at a concrete input). -/
theorem c3_amended_witness :
    (deleteQ mysqlEscapeIdentifier (some "users") none (.ok []) initState).2 = initState :=
  c3_amended_reset_on_success_only.2.2.2.2.2.2.2.2.1 "users" none initState [] (by decide)

/-- C9 counterexample: a query has just been executed successfully through
`get()`, yet `getLastQuery()` returns `null` — `reset()` clears `lastQuery`
on every successful terminal call, so the claimed post-execution shape is
unobservable there (and the recorded record has no `timestamp` field at all:
V1 stores only `{sql, params}`). -/
theorem c9_counterexample_lastQuery_null_after_success :
    getLastQuery (getQ (.ok []) (fromMysql mysqlEscapeIdentifier "t" initState)).2 = none := rfl

/-- C9 amended: `getLastQuery()` is `null` on a fresh builder; `executeQuery`
records `{sql, params}` (no `timestamp`) before awaiting the driver, so after
a failed `get()` the attempted query is observable; after a successful
`get()` the record is cleared back to `null` by `reset()`. -/
theorem c9_amended_lastQuery_lifecycle :
    getLastQuery initState = none ∧
    (∀ s rows, getLastQuery (getQ (.ok rows) s).2 = none) ∧
    (∀ s e, getLastQuery (getQ (.error e) s).2 =
      some (buildSelect mysqlLimitSyntax s, s.params)) :=
  ⟨rfl, fun _ _ => rfl, fun _ _ => rfl⟩

/-- Appending to the empty string is the identity. -/
theorem strNilAppend (x : String) : "" ++ x = x := strDataInj rfl

/-- C4 counterexample: the fields given to `select(['a'])` and the condition
string of a no-value `where('b = 1')` are emitted verbatim — the compiled SQL
contains no backtick at all, although the driver's `escapeIdentifier` always
backtick-quotes, so these identifiers were never passed through it. -/
theorem c4_counterexample_unescaped_emission :
    buildSelect mysqlLimitSyntax (selectList ["a"] initState) = "SELECT a" ∧
    mysqlEscapeIdentifier "a" = "`a`" ∧
    (buildSelect mysqlLimitSyntax (selectList ["a"] initState)).data.countP (fun c => c = '`') = 0 ∧
    buildSelect mysqlLimitSyntax (whereRaw "b = 1" initState) = "SELECT * WHERE b = 1" := by
  refine ⟨rfl, rfl, by decide, rfl⟩

/-- C4 amended: the identifier arguments of `from`, the valued forms of
`where`, `whereIn`, `whereLike` and `groupBy` pass through the driver's
`escapeIdentifier` exactly once (their emitted fragments are built around a
single application of it), while `select(fields)` stores its field list
verbatim and the no-value `where(field)` form appends its condition string
verbatim. -/
theorem c4_amended_escape_discipline :
    (∀ f v op s, s.whereClauses = [] →
      (whereVal mysqlEscapeIdentifier f v op s).whereClauses =
        [mysqlEscapeIdentifier f ++ " " ++ op ++ " ?"]) ∧
    (∀ f v op s, s.whereClauses ≠ [] →
      (whereVal mysqlEscapeIdentifier f v op s).whereClauses =
        s.whereClauses ++ ["AND " ++ mysqlEscapeIdentifier f ++ " " ++ op ++ " ?"]) ∧
    (∀ t s, (fromMysql mysqlEscapeIdentifier t s).fromTable = mysqlEscapeIdentifier t) ∧
    (∀ f vs s s', whereIn mysqlEscapeIdentifier f vs s = .ok s' →
      s'.whereClauses = s.whereClauses ++
        [mysqlEscapeIdentifier f ++ " IN (" ++ joinSep ", " (vs.map fun _ => "?") ++ ")"]) ∧
    (∀ f v s, (whereLike mysqlEscapeIdentifier f v s).whereClauses =
      s.whereClauses ++ [mysqlEscapeIdentifier f ++ " LIKE ?"]) ∧
    (∀ f s, (groupByStr mysqlEscapeIdentifier f s).groupByFields =
      s.groupByFields ++ [mysqlEscapeIdentifier f]) ∧
    (∀ fs s, (selectList fs s).selectFields = fs) ∧
    (∀ c s, s.whereClauses = [] → (whereRaw c s).whereClauses = [c]) := by
  refine ⟨?_, ?_, fun _ _ => rfl, ?_, fun _ _ _ => rfl, fun _ _ => rfl, fun _ _ => rfl, ?_⟩
  · intro f v op s h
    simp [whereVal, h]
  · intro f v op s h
    have : s.whereClauses.length > 0 := by
      cases hw : s.whereClauses with
      | nil => exact absurd hw h
      | cons a l => simp [hw]
    simp [whereVal, this]
  · intro f vs s s' h
    unfold whereIn at h
    split at h
    · exact absurd h (by simp)
    · cases h; rfl
  · intro c s h
    simp [whereRaw, h]

/-- Witness for C4 amended (discharges the empty/non-empty and success
hypotheses at concrete inputs). -/
theorem c4_amended_witness :
    (whereVal mysqlEscapeIdentifier "a" (.i 1) "=" initState).whereClauses =
        [mysqlEscapeIdentifier "a" ++ " " ++ "=" ++ " ?"] ∧
      ({ initState with whereClauses := ["`b` IN (?)"], params := [Val.i 2] } : BState).whereClauses =
        initState.whereClauses ++
          [mysqlEscapeIdentifier "b" ++ " IN (" ++ joinSep ", " ([Val.i 2].map fun _ => "?") ++ ")"] :=
  ⟨c4_amended_escape_discipline.1 "a" (.i 1) "=" initState rfl,
   c4_amended_escape_discipline.2.2.2.1 "b" [Val.i 2] initState
     { initState with whereClauses := ["`b` IN (?)"], params := [Val.i 2] } rfl⟩

/-- C5 counterexample: V1's `insertBatch` (the revision the claim cites) does
not raise on `[{a:1,b:2},{a:3,c:4}]` — it merges the rows onto the first
row's key set and calls the driver with `undefined` standing in for the
missing `b` of the second row. -/
theorem c5_counterexample_mismatched_rows_executed :
    insertBatchCall mysqlEscapeIdentifier "t"
        [[("a", Val.i 1), ("b", Val.i 2)], [("a", Val.i 3), ("c", Val.i 4)]] =
      .ok ("INSERT INTO `t` (`a`, `b`)\n                     VALUES (?, ?), (?, ?)",
        [Val.i 1, Val.i 2, Val.i 3, Val.undefV]) := rfl

/-- C5 amended: V1's `insertBatch` never validates field sets — for every
non-empty batch it hands the driver the rows projected onto the first row's
keys (missing keys bound as `undefined`); the enhanced revision embedded in
`CHANGELOG.md` is the one that raises the validation error before any
transport call, as witnessed on the claim's example input. -/
theorem c5_amended_projection_vs_v2 :
    (∀ t r0 rs, ∃ sql, insertBatchCall mysqlEscapeIdentifier t (r0 :: rs) =
      .ok (sql, (r0 :: rs).flatMap
        (fun row => (r0.map (·.1)).map (fun f => rowLookup row f)))) ∧
    insertBatchCallV2 mysqlEscapeIdentifier "t"
        [[("a", Val.i 1), ("b", Val.i 2)], [("a", Val.i 3), ("c", Val.i 4)]] =
      .error "Todas as linhas do batch devem ter os mesmos campos" := by
  refine ⟨fun t r0 rs => ⟨_, rfl⟩, rfl⟩

/-! ### Transaction nesting -/

/-- A transaction program run while already inside a transaction (flag set,
depth at least 1) issues no transaction statement to the driver and restores
the state exactly; it returns its callback's first error, if any. -/
theorem runTx_nested (p : TxProg) :
    ∀ t : TxState, t.inTransaction = true → 1 ≤ t.transactionDepth →
      runTx p t =
        ((match firstErr p with
          | none => Except.ok ()
          | some e => Except.error e), t) := by
  induction p with
  | ret => intro t _ _; rfl
  | throwErr e => intro t _ _; rfl
  | seq a b iha ihb =>
    intro t ht hd
    rw [runTx, iha t ht hd]
    cases hf : firstErr a with
    | none => simpa [firstErr, hf] using ihb t ht hd
    | some e => simp [firstErr, hf]
  | tx p ih =>
    rintro ⟨it, d, tr⟩ ht hd
    have hit : it = true := ht
    subst hit
    have hd' : 1 ≤ d := hd
    rw [runTx]
    simp only [if_true]
    rw [ih ⟨true, d + 1, tr⟩ rfl (by show (1 : Int) ≤ d + 1; omega)]
    have hfin : finallyStep ⟨true, d + 1, tr⟩ = ⟨true, d, tr⟩ := by
      unfold finallyStep
      simp only [add_sub_cancel_right]
      rw [if_neg (by omega)]
    cases hf : firstErr p with
    | none => simp [firstErr, hf, hfin]
    | some e => simp [firstErr, hf, hfin]

/-- C6: for every transaction callback program `p` (with arbitrarily deep
nested `transaction` calls inside), the outermost `transaction(p)` issues
exactly one `BEGIN`; on success exactly one `COMMIT` and no `ROLLBACK`; and
when the callback throws at any nesting level, exactly one `ROLLBACK`, no
`COMMIT`, and the original error is re-thrown to the outermost caller. -/
theorem c6_transaction_nesting (p : TxProg) :
    runTx (.tx p) {} =
      (match firstErr p with
        | none => (Except.ok (), ⟨false, 0, [.begin, .commit]⟩)
        | some e => (Except.error e, ⟨false, 0, [.begin, .rollback]⟩)) := by
  have hn := runTx_nested p ⟨true, 1, [.begin]⟩ rfl (by norm_num)
  rw [runTx]
  cases hf : firstErr p with
  | none =>
    rw [hf] at hn
    simp [beginTransactionQB, driverBegin, commitTransactionQB, driverCommit,
      finallyStep, hn]
  | some e =>
    rw [hf] at hn
    simp [beginTransactionQB, driverBegin, rollbackTransactionQB, driverRollback,
      finallyStep, hn]

/-! ### WHERE ceilings -/

/-- `whereVal` (V1) always appends exactly one clause. -/
theorem whereVal_length (esc : String → String) (f : String) (v : Val) (op : String)
    (s : BState) :
    (whereVal esc f v op s).whereClauses.length = s.whereClauses.length + 1 := by
  unfold whereVal; split <;> simp

/-- C7 counterexample: V1's `where` (the method the claim cites) performs no
ceiling check at all — it is a total state transformer, and 51 consecutive
`where('a',1)` calls on a fresh builder leave 51 accumulated WHERE clauses
instead of raising at the 51st; moreover, even in the enhanced revision,
`orWhere` appends a 51st clause to a builder already at the default ceiling
of 50 without any validation error. -/
theorem c7_counterexample_ceiling_not_enforced :
    (((fun s => whereVal mysqlEscapeIdentifier "a" (.i 1) "=" s)^[51]) initState).whereClauses.length = 51 ∧
    (∃ s', orWhereValV2 defaultValidation mysqlEscapeIdentifier "b" (.i 2) "="
        { initState with whereClauses := List.replicate 50 "x" } = .ok s' ∧
      s'.whereClauses.length = 51) := by
  constructor
  · have grow : ∀ n, (((fun s => whereVal mysqlEscapeIdentifier "a" (.i 1) "=" s)^[n])
        initState).whereClauses.length = n := by
      intro n
      induction n with
      | zero => rfl
      | succ n ih => rw [Function.iterate_succ_apply', whereVal_length, ih]
    exact grow 51
  · exact ⟨{ initState with
        whereClauses := List.replicate 50 "x" ++ ["OR `b` = ?"],
        params := [Val.i 2] }, rfl, by decide⟩

/-- C7 amended: only the enhanced revision enforces the WHERE ceiling, and
only in the methods that call `_validateWhereCount`: its `where` raises the
validation error instead of appending once 50 clauses (the default
`maxWhereConditions`) have accumulated, and appends below the ceiling; but
its `orWhere` (past the first clause) and `having` append without any
ceiling check, and V1's `where` never validates anything — every call
appends exactly one clause. -/
theorem c7_amended_ceiling_v2_where_only :
    (∀ s f v op, s.whereClauses.length ≥ 50 →
      whereValV2 defaultValidation mysqlEscapeIdentifier f v op s =
        .error "Muitas condições WHERE (máximo: 50)") ∧
    (∀ s f v, s.whereClauses.length < 50 →
      whereValV2 defaultValidation mysqlEscapeIdentifier f v "=" s =
        .ok (addWhereClause (mysqlEscapeIdentifier f ++ " " ++ "=" ++ " ?") (.one v) s)) ∧
    (∀ s f v, s.whereClauses.length ≠ 0 → ∃ s',
      orWhereValV2 defaultValidation mysqlEscapeIdentifier f v "=" s = .ok s' ∧
        s'.whereClauses.length = s.whereClauses.length + 1) ∧
    (∀ s f v, ∃ s', havingValV2 mysqlEscapeIdentifier f v "=" s = .ok s' ∧
        s'.havingClauses.length = s.havingClauses.length + 1) ∧
    (∀ s f v op, (whereVal mysqlEscapeIdentifier f v op s).whereClauses.length =
      s.whereClauses.length + 1) := by
  refine ⟨?_, ?_, ?_, ?_, fun s f v op => whereVal_length _ f v op s⟩
  · intro s f v op h
    unfold whereValV2 validateWhereCount defaultValidation
    simp [h]
    decide
  · intro s f v h
    unfold whereValV2 validateWhereCount defaultValidation
    have hop : validateOperator "=" = .ok () := rfl
    simp [Nat.not_le.mpr h, hop]
  · intro s f v h
    unfold orWhereValV2
    rw [if_neg h]
    have hop : validateOperator "=" = .ok () := rfl
    rw [hop]
    exact ⟨_, rfl, by simp⟩
  · intro s f v
    unfold havingValV2
    have hop : validateOperator "=" = .ok () := rfl
    rw [hop]
    by_cases h : s.havingClauses.length > 0
    · rw [if_pos h]; exact ⟨_, rfl, by simp⟩
    · rw [if_neg h]; exact ⟨_, rfl, by simp⟩

/-! ### PostgreSQL `from` and identifier validation -/

/-- `strContains` agrees with list membership on the character data. -/
theorem strContains_iff {t : String} {c : Char} : strContains t c = true ↔ c ∈ t.data := by
  simp only [strContains, List.contains]
  exact List.elem_iff

/-- Rebuilding a string from its character data is the identity. -/
theorem strEta (s : String) : (⟨s.data⟩ : String) = s := by cases s; rfl

/-- `splitCh` never returns an empty part list. -/
theorem splitCh_ne_nil (c : Char) (l : List Char) : splitCh c l ≠ [] := by
  cases l with
  | nil => simp [splitCh]
  | cons x xs =>
    unfold splitCh
    split
    · simp
    · cases h : splitCh c xs <;> simp

/-- Every character of a `splitCh` part occurs in the original list. -/
theorem splitCh_sub (c : Char) (l : List Char) :
    ∀ p ∈ splitCh c l, ∀ x ∈ p, x ∈ l := by
  induction l with
  | nil =>
    intro p hp x hx
    simp [splitCh] at hp
    subst hp
    cases hx
  | cons a xs ih =>
    intro p hp x hx
    unfold splitCh at hp
    by_cases hac : a = c
    · rw [if_pos hac] at hp
      rcases List.mem_cons.mp hp with rfl | hp
      · cases hx
      · exact List.mem_cons_of_mem a (ih p hp x hx)
    · rw [if_neg hac] at hp
      cases hsp : splitCh c xs with
      | nil => exact absurd hsp (splitCh_ne_nil c xs)
      | cons p0 ps =>
        rw [hsp] at hp
        rcases List.mem_cons.mp hp with rfl | hp
        · rcases List.mem_cons.mp hx with rfl | hx
          · exact List.mem_cons_self _ _
          · exact List.mem_cons_of_mem a (ih p0 (hsp ▸ List.mem_cons_self p0 ps) x hx)
        · exact List.mem_cons_of_mem a (ih p (hsp ▸ List.mem_cons_of_mem p0 hp) x hx)

/-- A character of the original list that is not the separator occurs in some
`splitCh` part. -/
theorem splitCh_cover (c x : Char) (l : List Char) (hx : x ∈ l) (hne : x ≠ c) :
    ∃ p ∈ splitCh c l, x ∈ p := by
  induction l with
  | nil => cases hx
  | cons a xs ih =>
    unfold splitCh
    by_cases hac : a = c
    · rw [if_pos hac]
      rcases List.mem_cons.mp hx with rfl | hx
      · exact absurd hac hne
      · obtain ⟨p, hp, hxp⟩ := ih hx
        exact ⟨p, List.mem_cons_of_mem _ hp, hxp⟩
    · rw [if_neg hac]
      cases hsp : splitCh c xs with
      | nil => exact absurd hsp (splitCh_ne_nil c xs)
      | cons p0 ps =>
        rcases List.mem_cons.mp hx with rfl | hx
        · exact ⟨x :: p0, List.mem_cons_self _ _, List.mem_cons_self _ _⟩
        · obtain ⟨p, hp, hxp⟩ := ih hx
          rw [hsp] at hp
          rcases List.mem_cons.mp hp with rfl | hp
          · exact ⟨a :: p, List.mem_cons_self _ _, List.mem_cons_of_mem a hxp⟩
          · exact ⟨p, List.mem_cons_of_mem _ hp, hxp⟩

/-- Splitting a list free of the separator yields the single original part. -/
theorem splitCh_no (c : Char) (l : List Char) (h : c ∉ l) : splitCh c l = [l] := by
  induction l with
  | nil => rfl
  | cons a xs ih =>
    have hac : ¬ a = c := fun he => h (he ▸ List.mem_cons_self a xs)
    have hxs : c ∉ xs := fun hm => h (List.mem_cons_of_mem a hm)
    unfold splitCh
    rw [if_neg hac, ih hxs]

/-- Splitting a list whose separator-free prefix is followed by the separator
peels off that prefix as the first part. -/
theorem splitCh_left (c : Char) (l1 l2 : List Char) (h : c ∉ l1) :
    splitCh c (l1 ++ c :: l2) = l1 :: splitCh c l2 := by
  induction l1 with
  | nil => simp [splitCh]
  | cons a xs ih =>
    have hac : ¬ a = c := fun he => h (he ▸ List.mem_cons_self a xs)
    have hxs : c ∉ xs := fun hm => h (List.mem_cons_of_mem a hm)
    show splitCh c (a :: (xs ++ c :: l2)) = (a :: xs) :: splitCh c l2
    conv_lhs => rw [splitCh]
    rw [if_neg hac, ih hxs]

/-- An identifier containing a character outside `[a-zA-Z0-9_$]` fails
PostgreSQL identifier validation. -/
theorem pgValidate_err_of_badchar {c : Char} (hch : pgCharOk c = false) (p : String)
    (hp : c ∈ p.data) : ∃ e, pgValidateIdentifier p = .error e := by
  unfold pgValidateIdentifier
  split
  · exact ⟨_, rfl⟩
  · split
    · exact ⟨_, rfl⟩
    · split
      · exact ⟨_, rfl⟩
      · rename_i hall
        exfalso
        rw [not_not] at hall
        have := List.all_eq_true.mp hall c hp
        rw [hch] at this
        cases this

/-- If any part is invalid, the validation loop over all parts throws. -/
theorem pgValidateAll_err {parts : List String} {p : String} (hp : p ∈ parts)
    (he : ∃ e, pgValidateIdentifier p = .error e) :
    ∃ e, pgValidateAll parts = .error e := by
  induction parts with
  | nil => cases hp
  | cons q qs ih =>
    unfold pgValidateAll
    cases hq : pgValidateIdentifier q with
    | error e => exact ⟨e, rfl⟩
    | ok u =>
      cases u
      rcases List.mem_cons.mp hp with rfl | hp'
      · obtain ⟨e, he⟩ := he
        rw [hq] at he
        cases he
      · exact ih hp' 

/-- `escapeIdentifier` throws for any identifier containing a character that
is outside `[a-zA-Z0-9_$]` and is not the `.` separator. -/
theorem pgEscape_err_of_badchar {c : Char} (hch : pgCharOk c = false) (hdot : c ≠ '.')
    (t : String) (hp : c ∈ t.data) : ∃ e, pgEscapeIdentifier t = .error e := by
  unfold pgEscapeIdentifier
  split
  · exact ⟨_, rfl⟩
  · split
    · dsimp only
      obtain ⟨p, hpmem, hchp⟩ := splitCh_cover '.' c t.data hp hdot
      have hmem : (⟨p⟩ : String) ∈ (splitCh '.' t.data).map (fun p => (⟨p⟩ : String)) :=
        List.mem_map_of_mem _ hpmem
      obtain ⟨e, he⟩ := pgValidateAll_err hmem (pgValidate_err_of_badchar hch ⟨p⟩ hchp)
      rw [he]
      exact ⟨e, rfl⟩
    · obtain ⟨e, he⟩ := pgValidate_err_of_badchar hch t hp
      rw [he]
      exact ⟨e, rfl⟩

/-- Escaping `a ++ "." ++ b` for two valid dot-free parts quotes the two
parts separately. -/
theorem pgEscape_dotted_pair (a b : String) (ha : pgValidateIdentifier a = .ok ())
    (hb : pgValidateIdentifier b = .ok ()) (hna : ('.' : Char) ∉ a.data)
    (hnb : ('.' : Char) ∉ b.data) :
    pgEscapeIdentifier (a ++ "." ++ b) = .ok (pgQuote a ++ "." ++ pgQuote b) := by
  have hdata : (a ++ "." ++ b).data = a.data ++ '.' :: b.data := by
    simp [strDataAppend]
  have hne : a ++ "." ++ b ≠ "" := by
    intro h
    have := congrArg String.data h
    rw [hdata] at this
    rcases List.append_eq_nil.mp this with ⟨_, h2⟩
    cases h2
  have hcont : strContains (a ++ "." ++ b) '.' = true := by
    rw [strContains_iff, hdata]
    exact List.mem_append.mpr (Or.inr (List.mem_cons_self _ _))
  have hsplit : splitCh '.' (a ++ "." ++ b).data = [a.data, b.data] := by
    rw [hdata, splitCh_left '.' a.data b.data hna, splitCh_no '.' b.data hnb]
  have hval : pgValidateAll [a, b] = .ok () := by
    unfold pgValidateAll
    rw [ha]
    show pgValidateAll [b] = .ok ()
    unfold pgValidateAll
    rw [hb]
    rfl
  unfold pgEscapeIdentifier
  rw [if_neg hne, if_pos hcont]
  dsimp only
  rw [hsplit]
  simp only [List.map_cons, List.map_nil, strEta]
  rw [hval]
  rfl

/-- V1 `from` (postgres config) on a dotted table name: the name is escaped
as given, with no schema prefix. -/
theorem fromPG_dotted (schema t : String) (s : BState) (h : strContains t '.' = true) :
    fromPG schema t s =
      (match pgEscapeIdentifier t with
        | .error e => .error e
        | .ok ft => .ok { s with fromTable := ft }) := by
  unfold fromPG
  rw [if_neg (by simp [h])]

/-- V1 `from` (postgres config) on an undotted, valid table name prefixes
the schema and quotes both parts. -/
theorem fromPG_schema_qual (t : String) (hnd : strContains t '.' = false)
    (hv : pgValidateIdentifier t = .ok ()) :
    fromPG "public" t initState =
      .ok { initState with fromTable := pgQuote "public" ++ "." ++ pgQuote t } := by
  have hmem : ('.' : Char) ∉ t.data := by
    intro hm
    rw [strContains_iff.mpr hm] at hnd
    cases hnd
  unfold fromPG
  rw [if_pos (by simp [hnd])]
  rw [pgEscape_dotted_pair "public" t rfl hv (by decide) hmem]

/-- V1 `from` (postgres config) throws on any table name containing a
character that is outside `[a-zA-Z0-9_$]` and is not `.` — in particular on
names containing a space or a parenthesis. -/
theorem fromPG_err_of_badchar {c : Char} (hch : pgCharOk c = false) (hdot : c ≠ '.')
    (schema t : String) (hmem : c ∈ t.data) (s : BState) :
    ∃ e, fromPG schema t s = .error e := by
  unfold fromPG
  split
  · have hmem' : c ∈ (schema ++ "." ++ t).data := by
      rw [strDataAppend]
      exact List.mem_append.mpr (Or.inr hmem)
    obtain ⟨e, he⟩ := pgEscape_err_of_badchar hch hdot _ hmem'
    rw [he]
    exact ⟨e, rfl⟩
  · obtain ⟨e, he⟩ := pgEscape_err_of_badchar hch hdot t hmem
    rw [he]
    exact ⟨e, rfl⟩

/-- The enhanced revision's `from` also throws on a space-containing name:
the space only exempts the name from schema qualification, but
`escapeIdentifier` still validates and rejects it. -/
theorem fromPGV2_err_of_space (schema t : String) (s : BState)
    (hsp : (' ' : Char) ∈ t.data) : ∃ e, fromPGV2 schema t s = .error e := by
  unfold fromPGV2
  split
  · exact ⟨_, rfl⟩
  · have hc : strContains t ' ' = true := strContains_iff.mpr hsp
    rw [if_neg (by simp [hc])]
    dsimp only
    obtain ⟨e, he⟩ := pgEscape_err_of_badchar (c := ' ') (by decide) (by decide) t hsp
    rw [he]
    exact ⟨e, rfl⟩

/-- C8 counterexample: `from('my tab')` on the PostgreSQL configuration
raises (the identifier validation rejects the space) instead of accepting the
name unchanged — in V1, which schema-prefixes it first, and likewise in the
enhanced revision, whose space/parenthesis test only skips the schema prefix;
a parenthesized name is rejected the same way. -/
theorem c8_counterexample_from_raises :
    fromPG "public" "my tab" initState =
      .error "Identificador contém caracteres inválidos: my tab" ∧
    fromPGV2 "public" "ids(x)" initState =
      .error "Identificador contém caracteres inválidos: ids(x)" := ⟨rfl, rfl⟩

/-- C8 amended: on the PostgreSQL driver, V1's `from(table)` prefixes the
configured schema exactly when the name contains no `.` (quoting both parts
when the name is otherwise valid); a dotted name is escaped as given; but
names containing a space or a parenthesis are not accepted unchanged — the
driver's identifier validation rejects them, so `from()` raises on them, in
V1 and in the enhanced revision alike. -/
theorem c8_amended_from_schema_qualification :
    (∀ t, strContains t '.' = false → pgValidateIdentifier t = .ok () →
      fromPG "public" t initState =
        .ok { initState with fromTable := pgQuote "public" ++ "." ++ pgQuote t }) ∧
    (∀ t s, strContains t '.' = true →
      fromPG "public" t s =
        (match pgEscapeIdentifier t with
          | .error e => .error e
          | .ok ft => .ok { s with fromTable := ft })) ∧
    (∀ t s, (' ' : Char) ∈ t.data → ∃ e, fromPG "public" t s = .error e) ∧
    (∀ t s, ('(' : Char) ∈ t.data → ∃ e, fromPG "public" t s = .error e) ∧
    (∀ t s, (' ' : Char) ∈ t.data → ∃ e, fromPGV2 "public" t s = .error e) := by
  refine ⟨fromPG_schema_qual, fun t s h => fromPG_dotted "public" t s h, ?_, ?_, ?_⟩
  · intro t s h
    exact fromPG_err_of_badchar (c := ' ') (by decide) (by decide) "public" t h s
  · intro t s h
    exact fromPG_err_of_badchar (c := '(') (by decide) (by decide) "public" t h s
  · intro t s h
    exact fromPGV2_err_of_space "public" t s h

/-! ### Placeholder counting and substitution toolkit -/

/-- `?` counting distributes over append. -/
theorem countQL_append (a b : List Char) : countQL (a ++ b) = countQL a + countQL b := by
  simp [countQL, List.countP_append]

/-- A `noQ` string has no `?` character. -/
theorem noQ_mem {s : String} (h : noQ s = true) : ∀ x ∈ s.data, x ≠ '?' := by
  intro x hx
  have := List.all_eq_true.mp h x hx
  simpa using this

/-- A character list without `?` counts zero placeholders. -/
theorem countQL_zero_of_no {l : List Char} (h : ∀ x ∈ l, x ≠ '?') : countQL l = 0 := by
  simp only [countQL]
  rw [List.countP_eq_zero]
  intro a ha
  simpa using h a ha

/-- A `noQ` string counts zero placeholders. -/
theorem countQL_zero_of_noQ {s : String} (h : noQ s = true) : countQL s.data = 0 :=
  countQL_zero_of_no (noQ_mem h)

/-- Characters produced by `charReplaceL` come from the replacement or the
source. -/
theorem charReplaceL_mem {c : Char} {rep l : List Char} {x : Char}
    (h : x ∈ charReplaceL c rep l) : x ∈ rep ∨ x ∈ l := by
  induction l with
  | nil => cases h
  | cons a as ih =>
    unfold charReplaceL at h
    rcases List.mem_append.mp h with h1 | h1
    · by_cases hac : a = c
      · rw [if_pos hac] at h1
        exact Or.inl h1
      · rw [if_neg hac] at h1
        rcases List.mem_singleton.mp h1 with rfl
        exact Or.inr (List.mem_cons_self _ _)
    · rcases ih h1 with h2 | h2
      · exact Or.inl h2
      · exact Or.inr (List.mem_cons_of_mem _ h2)

/-- Characters of a backtick-quoted part are backticks or source characters. -/
theorem escTick_mem {s : String} {x : Char} (h : x ∈ (escTick s).data) :
    x = '`' ∨ x ∈ s.data := by
  simp only [escTick] at h
  rcases List.mem_cons.mp h with rfl | h1
  · exact Or.inl rfl
  · rcases List.mem_append.mp h1 with h2 | h2
    · rcases charReplaceL_mem h2 with h3 | h3
      · rcases List.mem_cons.mp h3 with rfl | h4
        · exact Or.inl rfl
        · rcases List.mem_singleton.mp h4 with rfl
          exact Or.inl rfl
      · exact Or.inr h3
    · rcases List.mem_singleton.mp h2 with rfl
      exact Or.inl rfl

/-- A list element retrieved with a fallback is a member or the fallback. -/
theorem getD_mem_or (l : List String) (i : Nat) (d : String) :
    l.getD i d ∈ l ∨ l.getD i d = d := by
  rw [List.getD_eq_getD_get?]
  cases h : l.get? i with
  | none => simp [h]
  | some a =>
    left
    simp only [h, Option.getD_some]
    exact List.get?_mem h

/-- Characters of a MySQL-escaped identifier are backticks, dots, or source
characters. -/
theorem mysqlEsc_mem {f : String} {x : Char}
    (h : x ∈ (mysqlEscapeIdentifier f).data) : x = '`' ∨ x = '.' ∨ x ∈ f.data := by
  have hsub : ∀ p : String,
      p ∈ (splitCh '.' f.data).map (fun p => (⟨p⟩ : String)) → ∀ y ∈ p.data, y ∈ f.data := by
    intro p hp y hy
    rcases List.mem_map.mp hp with ⟨q, hq, rfl⟩
    exact splitCh_sub '.' f.data q hq y hy
  unfold mysqlEscapeIdentifier at h
  dsimp only at h
  split at h
  · rename_i hcond
    rw [strDataAppend, strDataAppend] at h
    rcases List.mem_append.mp h with h1 | h1
    · rcases List.mem_append.mp h1 with h2 | h2
      · rcases escTick_mem h2 with h3 | h3
        · exact Or.inl h3
        · rcases getD_mem_or ((splitCh '.' f.data).map (fun p => (⟨p⟩ : String))) 0 "" with hm | hm
          · exact Or.inr (Or.inr (hsub _ hm x h3))
          · rw [hm] at h3
            cases h3
      · rcases List.mem_singleton.mp h2 with rfl
        exact Or.inr (Or.inl rfl)
    · rcases escTick_mem h1 with h3 | h3
      · exact Or.inl h3
      · rcases getD_mem_or ((splitCh '.' f.data).map (fun p => (⟨p⟩ : String))) 1 "" with hm | hm
        · exact Or.inr (Or.inr (hsub _ hm x h3))
        · rw [hm] at h3
          cases h3
  · rcases escTick_mem h with h3 | h3
    · exact Or.inl h3
    · exact Or.inr (Or.inr h3)

/-- Escaping a `noQ` identifier yields a placeholder-free fragment. -/
theorem countQL_mysqlEsc {f : String} (h : noQ f = true) :
    countQL (mysqlEscapeIdentifier f).data = 0 := by
  refine countQL_zero_of_no ?_
  intro x hx
  rcases mysqlEsc_mem hx with rfl | rfl | hm
  · decide
  · decide
  · exact noQ_mem h x hm

/-- Substitution with no parameters is the identity. -/
theorem substQL_nil_params (l : List Char) : substQL l [] = l := by
  induction l with
  | nil => rfl
  | cons c rest ih =>
    unfold substQL
    split <;> simp [ih]

/-- Substituting into a list that starts with a placeholder consumes the
first parameter. -/
theorem substQL_cons_q (rest : List Char) (p : Val) (ps : List Val) :
    substQL ('?' :: rest) (p :: ps) = (renderVal p).data ++ substQL rest ps := by
  simp [substQL]

/-- Substituting into a list that starts with an ordinary character keeps
it. -/
theorem substQL_cons_nq {c : Char} (h : c ≠ '?') (rest : List Char) (ps : List Val) :
    substQL (c :: rest) ps = c :: substQL rest ps := by
  conv_lhs => rw [substQL.eq_def]
  dsimp only
  rw [if_neg h]

/-- Substitution splits along an append whose prefix consumes exactly the
first parameters. -/
theorem substQL_append_exact {a : List Char} {ps : List Val}
    (h : countQL a = ps.length) (b : List Char) (qs : List Val) :
    substQL (a ++ b) (ps ++ qs) = substQL a ps ++ substQL b qs := by
  induction a generalizing ps with
  | nil =>
    have : ps = [] := List.eq_nil_of_length_eq_zero (by simpa [countQL] using h.symm)
    subst this
    simp [substQL]
  | cons c a' ih =>
    by_cases hc : c = '?'
    · subst hc
      have hcount : countQL ('?' :: a') = countQL a' + 1 := by
        simp [countQL, List.countP_cons]
      rw [hcount] at h
      cases ps with
      | nil => simp at h
      | cons p ps' =>
        have hlen : countQL a' = ps'.length := by
          simpa using h
        simp only [List.cons_append, substQL_cons_q, ih hlen, List.append_assoc]
    · have hcount : countQL (c :: a') = countQL a' := by
        simp [countQL, List.countP_cons, hc]
      rw [hcount] at h
      simp only [List.cons_append, substQL_cons_nq hc, ih h]

/-- Substitution walks through a placeholder-free prefix unchanged. -/
theorem substQL_prefix_no {a : List Char} (h : countQL a = 0) (b : List Char)
    (ps : List Val) : substQL (a ++ b) ps = a ++ substQL b ps := by
  have := @substQL_append_exact a [] (by simpa using h) b ps
  simpa [substQL_nil_params] using this

/-- Data of a separator-joined list with one more element. -/
theorem joinSep_data_concat (sep x : String) (l : List String) (h : l ≠ []) :
    (joinSep sep (l ++ [x])).data = (joinSep sep l).data ++ sep.data ++ x.data := by
  induction l with
  | nil => exact absurd rfl h
  | cons a as ih =>
    cases as with
    | nil => simp [joinSep, strDataAppend]
    | cons b bs =>
      have h1 : joinSep sep ((a :: b :: bs) ++ [x]) =
          a ++ sep ++ joinSep sep ((b :: bs) ++ [x]) := rfl
      have h2 : joinSep sep (a :: b :: bs) = a ++ sep ++ joinSep sep (b :: bs) := rfl
      rw [h1, h2]
      simp only [strDataAppend]
      rw [ih (by simp)]
      simp [List.append_assoc]

/-- Substituting one value into a placeholder-free prefix followed by `?`. -/
theorem substQL_one {pre : List Char} (hpre : countQL pre = 0) (v : Val) :
    substQL (pre ++ ['?']) [v] = pre ++ (renderVal v).data := by
  rw [substQL_prefix_no hpre]
  rw [substQL_cons_q]
  simp [substQL]

/-- A separator-free join counts the placeholders of its fragments. -/
theorem joinSep_count {sep : String} (hsep : countQL sep.data = 0) (l : List String) :
    countQL (joinSep sep l).data = sumCount l := by
  induction l with
  | nil => rfl
  | cons a as ih =>
    cases as with
    | nil => simp [joinSep, sumCount]
    | cons b bs =>
      rw [show joinSep sep (a :: b :: bs) = a ++ sep ++ joinSep sep (b :: bs) from rfl]
      simp only [strDataAppend, countQL_append, hsep, ih]
      simp [sumCount]

/-- Placeholder count of an IN-list placeholder group. -/
theorem countQL_qmarks (vs : List Val) :
    countQL (joinSep ", " (vs.map fun _ => "?")).data = vs.length := by
  induction vs with
  | nil => rfl
  | cons v vs ih =>
    cases vs with
    | nil => rfl
    | cons w ws =>
      rw [show joinSep ", " ((v :: w :: ws).map fun _ => "?") =
          "?" ++ ", " ++ joinSep ", " ((w :: ws).map fun _ => "?") from rfl]
      simp only [strDataAppend, countQL_append, ih]
      simp [countQL]
      omega

/-- Substituting the IN-list values into the placeholder group renders them
in order. -/
theorem substQL_qmarks (vs : List Val) :
    substQL (joinSep ", " (vs.map fun _ => "?")).data vs =
      (joinSep ", " (vs.map renderVal)).data := by
  induction vs with
  | nil => rfl
  | cons v vs ih =>
    cases vs with
    | nil =>
      show substQL ['?'] [v] = (renderVal v).data
      rw [substQL_cons_q]
      simp [substQL]
    | cons w ws =>
      rw [show joinSep ", " ((v :: w :: ws).map fun _ => "?") =
          "?" ++ ", " ++ joinSep ", " ((w :: ws).map fun _ => "?") from rfl]
      rw [show joinSep ", " ((v :: w :: ws).map renderVal) =
          renderVal v ++ ", " ++ joinSep ", " ((w :: ws).map renderVal) from rfl]
      simp only [strDataAppend]
      rw [show (("?".data ++ ", ".data) ++ (joinSep ", " ((w :: ws).map fun _ => "?")).data)
          = '?' :: (", ".data ++ (joinSep ", " ((w :: ws).map fun _ => "?")).data) by simp]
      rw [show (v :: w :: ws) = [v] ++ (w :: ws) from rfl]
      rw [show ([v] ++ (w :: ws) : List Val) = v :: (w :: ws) from rfl]
      rw [substQL_cons_q]
      rw [substQL_prefix_no (by decide)]
      rw [ih]
      simp [List.append_assoc]

/-- Placeholder count of the grouped equality conditions of the object form
of `orWhere`/`orHaving`. -/
theorem countQL_conds (kvs : List (String × Val))
    (h : ∀ kv ∈ kvs, noQ kv.1 = true) :
    countQL (joinSep " AND "
        (kvs.map fun kv => mysqlEscapeIdentifier kv.1 ++ " = ?")).data = kvs.length := by
  induction kvs with
  | nil => rfl
  | cons kv kvs ih =>
    have hk : noQ kv.1 = true := h kv (List.mem_cons_self _ _)
    have htl : ∀ x ∈ kvs, noQ x.1 = true := fun x hx => h x (List.mem_cons_of_mem _ hx)
    have helem : countQL (mysqlEscapeIdentifier kv.1 ++ " = ?").data = 1 := by
      rw [strDataAppend, countQL_append, countQL_mysqlEsc hk]
      rfl
    cases kvs with
    | nil => exact helem
    | cons kw kws =>
      rw [show joinSep " AND " ((kv :: kw :: kws).map fun x => mysqlEscapeIdentifier x.1 ++ " = ?")
          = (mysqlEscapeIdentifier kv.1 ++ " = ?") ++ " AND " ++
            joinSep " AND " ((kw :: kws).map fun x => mysqlEscapeIdentifier x.1 ++ " = ?")
          from rfl]
      rw [show ((mysqlEscapeIdentifier kv.1 ++ " = ?") ++ " AND " ++
            joinSep " AND " ((kw :: kws).map fun x => mysqlEscapeIdentifier x.1 ++ " = ?")).data
          = (mysqlEscapeIdentifier kv.1 ++ " = ?").data ++ (" AND ".data ++
            (joinSep " AND "
              ((kw :: kws).map fun x => mysqlEscapeIdentifier x.1 ++ " = ?")).data)
          by simp [strDataAppend]]
      simp only [countQL_append]
      rw [helem, ih htl]
      have hand : countQL " AND ".data = 0 := by decide
      rw [hand]
      simp
      omega

/-- Substituting the object values into the grouped equality conditions
renders each value beside its own key. -/
theorem substQL_conds (kvs : List (String × Val))
    (h : ∀ kv ∈ kvs, noQ kv.1 = true) :
    substQL (joinSep " AND "
        (kvs.map fun kv => mysqlEscapeIdentifier kv.1 ++ " = ?")).data (kvs.map (·.2)) =
      (joinSep " AND "
        (kvs.map fun kv => mysqlEscapeIdentifier kv.1 ++ " = " ++ renderVal kv.2)).data := by
  induction kvs with
  | nil => rfl
  | cons kv kvs ih =>
    have hk : noQ kv.1 = true := h kv (List.mem_cons_self _ _)
    have htl : ∀ x ∈ kvs, noQ x.1 = true := fun x hx => h x (List.mem_cons_of_mem _ hx)
    have hcnt : countQL (mysqlEscapeIdentifier kv.1 ++ " = ?").data =
        ([kv.2] : List Val).length := by
      rw [strDataAppend, countQL_append, countQL_mysqlEsc hk]
      rfl
    have helem : substQL (mysqlEscapeIdentifier kv.1 ++ " = ?").data [kv.2] =
        (mysqlEscapeIdentifier kv.1 ++ " = " ++ renderVal kv.2).data := by
      rw [show (mysqlEscapeIdentifier kv.1 ++ " = ?").data =
          (mysqlEscapeIdentifier kv.1 ++ " = ").data ++ ['?'] by simp [strDataAppend]]
      rw [substQL_one (by
        rw [strDataAppend, countQL_append, countQL_mysqlEsc hk]; rfl)]
      simp [strDataAppend]
    cases kvs with
    | nil => exact helem
    | cons kw kws =>
      rw [show joinSep " AND " ((kv :: kw :: kws).map fun x => mysqlEscapeIdentifier x.1 ++ " = ?")
          = (mysqlEscapeIdentifier kv.1 ++ " = ?") ++ " AND " ++
            joinSep " AND " ((kw :: kws).map fun x => mysqlEscapeIdentifier x.1 ++ " = ?")
          from rfl]
      rw [show joinSep " AND " ((kv :: kw :: kws).map
            fun x => mysqlEscapeIdentifier x.1 ++ " = " ++ renderVal x.2)
          = (mysqlEscapeIdentifier kv.1 ++ " = " ++ renderVal kv.2) ++ " AND " ++
            joinSep " AND " ((kw :: kws).map
              fun x => mysqlEscapeIdentifier x.1 ++ " = " ++ renderVal x.2)
          from rfl]
      rw [show ((kv :: kw :: kws).map (·.2)) = [kv.2] ++ ((kw :: kws).map (·.2)) from rfl]
      rw [show ((mysqlEscapeIdentifier kv.1 ++ " = ?") ++ " AND " ++
            joinSep " AND " ((kw :: kws).map fun x => mysqlEscapeIdentifier x.1 ++ " = ?")).data
          = (mysqlEscapeIdentifier kv.1 ++ " = ?").data ++ (" AND ".data ++
            (joinSep " AND "
              ((kw :: kws).map fun x => mysqlEscapeIdentifier x.1 ++ " = ?")).data)
          by simp [strDataAppend]]
      rw [substQL_append_exact hcnt]
      rw [substQL_prefix_no (by decide)]
      rw [helem, ih htl]
      simp [strDataAppend, List.append_assoc]

/-- Sum of counts over one more clause. -/
theorem sumCount_append (l : List String) (x : String) :
    sumCount (l ++ [x]) = sumCount l + countQL x.data := by
  simp [sumCount]

/-- String-level placeholder count distributes over append. -/
theorem countQS_append (a b : String) :
    countQL (a ++ b).data = countQL a.data + countQL b.data := by
  rw [strDataAppend, countQL_append]

/-- Count of a connector-free valued `where` fragment. -/
theorem countQL_valfrag {f op : String} (hf : noQ f = true) (hop : noQ op = true) :
    countQL (mysqlEscapeIdentifier f ++ " " ++ op ++ " ?").data = 1 := by
  simp only [countQS_append, countQL_mysqlEsc hf, countQL_zero_of_noQ hop]
  decide

/-- Count of an `AND`-connected valued `where` fragment. -/
theorem countQL_valfragAnd {f op : String} (hf : noQ f = true) (hop : noQ op = true) :
    countQL ("AND " ++ mysqlEscapeIdentifier f ++ " " ++ op ++ " ?").data = 1 := by
  simp only [countQS_append, countQL_mysqlEsc hf, countQL_zero_of_noQ hop]
  decide

/-- Count of an `OR`-connected valued fragment. -/
theorem countQL_valfragOr {f op : String} (hf : noQ f = true) (hop : noQ op = true) :
    countQL ("OR " ++ mysqlEscapeIdentifier f ++ " " ++ op ++ " ?").data = 1 := by
  simp only [countQS_append, countQL_mysqlEsc hf, countQL_zero_of_noQ hop]
  decide

/-- Substitution through a connector-free valued fragment. -/
theorem substQL_valfrag {f op : String} (hf : noQ f = true) (hop : noQ op = true) (v : Val) :
    substQL (mysqlEscapeIdentifier f ++ " " ++ op ++ " ?").data [v] =
      (mysqlEscapeIdentifier f ++ " " ++ op ++ " " ++ renderVal v).data := by
  rw [show (mysqlEscapeIdentifier f ++ " " ++ op ++ " ?").data =
      (mysqlEscapeIdentifier f ++ " " ++ op ++ " ").data ++ ['?'] by simp [strDataAppend]]
  rw [substQL_one (by
    simp only [countQS_append, countQL_mysqlEsc hf, countQL_zero_of_noQ hop]
    decide)]
  simp [strDataAppend]

/-- Substitution through an `AND`-connected valued fragment. -/
theorem substQL_valfragAnd {f op : String} (hf : noQ f = true) (hop : noQ op = true) (v : Val) :
    substQL ("AND " ++ mysqlEscapeIdentifier f ++ " " ++ op ++ " ?").data [v] =
      ("AND " ++ mysqlEscapeIdentifier f ++ " " ++ op ++ " " ++ renderVal v).data := by
  rw [show ("AND " ++ mysqlEscapeIdentifier f ++ " " ++ op ++ " ?").data =
      ("AND " ++ mysqlEscapeIdentifier f ++ " " ++ op ++ " ").data ++ ['?'] by
        simp [strDataAppend]]
  rw [substQL_one (by
    simp only [countQS_append, countQL_mysqlEsc hf, countQL_zero_of_noQ hop]
    decide)]
  simp [strDataAppend]

/-- Substitution through an `OR`-connected valued fragment. -/
theorem substQL_valfragOr {f op : String} (hf : noQ f = true) (hop : noQ op = true) (v : Val) :
    substQL ("OR " ++ mysqlEscapeIdentifier f ++ " " ++ op ++ " ?").data [v] =
      ("OR " ++ mysqlEscapeIdentifier f ++ " " ++ op ++ " " ++ renderVal v).data := by
  rw [show ("OR " ++ mysqlEscapeIdentifier f ++ " " ++ op ++ " ?").data =
      ("OR " ++ mysqlEscapeIdentifier f ++ " " ++ op ++ " ").data ++ ['?'] by
        simp [strDataAppend]]
  rw [substQL_one (by
    simp only [countQS_append, countQL_mysqlEsc hf, countQL_zero_of_noQ hop]
    decide)]
  simp [strDataAppend]

/-- Count of one object-form equality fragment. -/
theorem countQL_eqfrag {k : String} (hk : noQ k = true) :
    countQL (mysqlEscapeIdentifier k ++ " = ?").data = 1 := by
  simp only [countQS_append, countQL_mysqlEsc hk]
  decide

/-- Count of an `AND`-connected object-form equality fragment. -/
theorem countQL_eqfragAnd {k : String} (hk : noQ k = true) :
    countQL ("AND " ++ mysqlEscapeIdentifier k ++ " = ?").data = 1 := by
  simp only [countQS_append, countQL_mysqlEsc hk]
  decide

/-- Substitution through one object-form equality fragment. -/
theorem substQL_eqfrag {k : String} (hk : noQ k = true) (v : Val) :
    substQL (mysqlEscapeIdentifier k ++ " = ?").data [v] =
      (mysqlEscapeIdentifier k ++ " = " ++ renderVal v).data := by
  rw [show (mysqlEscapeIdentifier k ++ " = ?").data =
      (mysqlEscapeIdentifier k ++ " = ").data ++ ['?'] by simp [strDataAppend]]
  rw [substQL_one (by
    simp only [countQS_append, countQL_mysqlEsc hk]
    decide)]
  simp [strDataAppend]

/-- Substitution through an `AND`-connected object-form equality fragment. -/
theorem substQL_eqfragAnd {k : String} (hk : noQ k = true) (v : Val) :
    substQL ("AND " ++ mysqlEscapeIdentifier k ++ " = ?").data [v] =
      ("AND " ++ mysqlEscapeIdentifier k ++ " = " ++ renderVal v).data := by
  rw [show ("AND " ++ mysqlEscapeIdentifier k ++ " = ?").data =
      ("AND " ++ mysqlEscapeIdentifier k ++ " = ").data ++ ['?'] by simp [strDataAppend]]
  rw [substQL_one (by
    simp only [countQS_append, countQL_mysqlEsc hk]
    decide)]
  simp [strDataAppend]

/-- Count of a `LIKE` fragment. -/
theorem countQL_likefrag {f : String} (hf : noQ f = true) (lit : String)
    (hlit : noQ lit = true) :
    countQL (mysqlEscapeIdentifier f ++ (lit ++ "?")).data = 1 := by
  simp only [countQS_append, countQL_mysqlEsc hf, countQL_zero_of_noQ hlit]
  decide

/-- Substitution through a `LIKE` fragment. -/
theorem substQL_likefrag {f : String} (hf : noQ f = true) (lit : String)
    (hlit : noQ lit = true) (v : Val) :
    substQL (mysqlEscapeIdentifier f ++ (lit ++ "?")).data [v] =
      (mysqlEscapeIdentifier f ++ (lit ++ renderVal v)).data := by
  rw [show (mysqlEscapeIdentifier f ++ (lit ++ "?")).data =
      (mysqlEscapeIdentifier f ++ lit).data ++ ['?'] by simp [strDataAppend]]
  rw [substQL_one (by
    simp only [countQS_append, countQL_mysqlEsc hf, countQL_zero_of_noQ hlit])]
  simp [strDataAppend]

/-- Count of an IN-list fragment. -/
theorem countQL_infrag {f : String} (hf : noQ f = true) (lit : String)
    (hlit : noQ lit = true) (vs : List Val) :
    countQL (mysqlEscapeIdentifier f ++ lit ++
      joinSep ", " (vs.map fun _ => "?") ++ ")").data = vs.length := by
  simp only [countQS_append, countQL_mysqlEsc hf, countQL_zero_of_noQ hlit,
    countQL_qmarks]
  have h0 : countQL [')'] = 0 := by decide
  omega

/-- Substitution through an IN-list fragment. -/
theorem substQL_infrag {f : String} (hf : noQ f = true) (lit : String)
    (hlit : noQ lit = true) (vs : List Val) :
    substQL (mysqlEscapeIdentifier f ++ lit ++
        joinSep ", " (vs.map fun _ => "?") ++ ")").data vs =
      (mysqlEscapeIdentifier f ++ lit ++
        joinSep ", " (vs.map renderVal) ++ ")").data := by
  rw [show (mysqlEscapeIdentifier f ++ lit ++
        joinSep ", " (vs.map fun _ => "?") ++ ")").data =
      (mysqlEscapeIdentifier f ++ lit).data ++
        ((joinSep ", " (vs.map fun _ => "?")).data ++ [')']) by
        simp [strDataAppend, List.append_assoc]]
  rw [substQL_prefix_no (by
    simp only [countQS_append, countQL_mysqlEsc hf, countQL_zero_of_noQ hlit])]
  have hsplit := substQL_append_exact (countQL_qmarks vs) [')'] []
  rw [List.append_nil] at hsplit
  rw [hsplit, substQL_qmarks, substQL_nil_params]
  simp [strDataAppend, List.append_assoc]

/-- Count of a grouped object-form `OR` fragment. -/
theorem countQL_orobjfrag (kvs : List (String × Val))
    (h : ∀ kv ∈ kvs, noQ kv.1 = true) :
    countQL ("OR (" ++ joinSep " AND "
      (kvs.map fun kv => mysqlEscapeIdentifier kv.1 ++ " = ?") ++ ")").data = kvs.length := by
  simp only [countQS_append, countQL_conds kvs h]
  have h1 : countQL ['O', 'R', ' ', '('] = 0 := by decide
  have h2 : countQL [')'] = 0 := by decide
  omega

/-- Substitution through a grouped object-form `OR` fragment. -/
theorem substQL_orobjfrag (kvs : List (String × Val))
    (h : ∀ kv ∈ kvs, noQ kv.1 = true) :
    substQL ("OR (" ++ joinSep " AND "
        (kvs.map fun kv => mysqlEscapeIdentifier kv.1 ++ " = ?") ++ ")").data
        (kvs.map (·.2)) =
      ("OR (" ++ joinSep " AND "
        (kvs.map fun kv => mysqlEscapeIdentifier kv.1 ++ " = " ++ renderVal kv.2) ++ ")").data := by
  rw [show ("OR (" ++ joinSep " AND "
        (kvs.map fun kv => mysqlEscapeIdentifier kv.1 ++ " = ?") ++ ")").data =
      "OR (".data ++ ((joinSep " AND "
        (kvs.map fun kv => mysqlEscapeIdentifier kv.1 ++ " = ?")).data ++ [')']) by
        simp [strDataAppend, List.append_assoc]]
  rw [substQL_prefix_no (by decide)]
  have hcnt : countQL (joinSep " AND "
      (kvs.map fun kv => mysqlEscapeIdentifier kv.1 ++ " = ?")).data =
      (kvs.map (·.2)).length := by
    rw [countQL_conds kvs h]
    simp
  have hsplit := substQL_append_exact hcnt [')'] []
  rw [List.append_nil] at hsplit
  rw [hsplit, substQL_conds kvs h, substQL_nil_params]
  simp [strDataAppend, List.append_assoc]

/-- Appending one fragment with matching parameters preserves the count
invariant on the WHERE side. -/
theorem countInv_appendW (s : BState) (frag : String) (pvs : List Val)
    (hfrag : countQL frag.data = pvs.length) (h : countInv s) :
    countInv { s with whereClauses := s.whereClauses ++ [frag],
                      params := s.params ++ pvs } := by
  unfold countInv at *
  simp only [sumCount_append, hfrag, List.length_append]
  omega

/-- Appending one fragment with matching parameters preserves the count
invariant on the HAVING side. -/
theorem countInv_appendH (s : BState) (frag : String) (pvs : List Val)
    (hfrag : countQL frag.data = pvs.length) (h : countInv s) :
    countInv { s with havingClauses := s.havingClauses ++ [frag],
                      params := s.params ++ pvs } := by
  unfold countInv at *
  simp only [sumCount_append, hfrag, List.length_append]
  omega

/-- Count of a space-joined clause list with one more fragment. -/
theorem joinSep_concat_count (l : List String) (frag : String) :
    countQL (joinSep " " (l ++ [frag])).data =
      countQL (joinSep " " l).data + countQL frag.data := by
  cases l with
  | nil =>
    have h0 : countQL ([] : List Char) = 0 := by decide
    simp [joinSep, h0]
  | cons a as =>
    rw [joinSep_data_concat " " frag (a :: as) (by simp), countQL_append, countQL_append]
    have h0 : countQL " ".data = 0 := by decide
    rw [h0]
    omega

/-- Substitution through a space-joined clause list with one more aligned
fragment. -/
theorem joinSep_concat_subst (l lI : List String) (frag fragI : String)
    (ps pvs : List Val)
    (hcl : countQL (joinSep " " l).data = ps.length)
    (hsl : substQL (joinSep " " l).data ps = (joinSep " " lI).data)
    (hlen : l.length = lI.length)
    (hc : countQL frag.data = pvs.length)
    (hs : substQL frag.data pvs = fragI.data) :
    substQL (joinSep " " (l ++ [frag])).data (ps ++ pvs) =
      (joinSep " " (lI ++ [fragI])).data := by
  cases l with
  | nil =>
    have hlI : lI = [] := by
      rw [List.length_eq_zero.mp hlen.symm]
    subst hlI
    have hp : ps = [] := by
      refine List.eq_nil_of_length_eq_zero ?_
      have h0 : countQL (joinSep " " ([] : List String)).data = 0 := by decide
      rw [h0] at hcl
      exact hcl.symm
    subst hp
    simpa [joinSep] using hs
  | cons a as =>
    cases lI with
    | nil => simp at hlen
    | cons b bs =>
      rw [joinSep_data_concat " " frag (a :: as) (by simp)]
      rw [List.append_assoc]
      rw [substQL_append_exact hcl]
      rw [substQL_prefix_no (by decide)]
      rw [hsl, hs]
      rw [joinSep_data_concat " " fragI (b :: bs) (by simp)]
      simp [List.append_assoc]

/-- Appending one aligned fragment pair preserves the phase-1 relation. -/
theorem alignInv1_appendW {s t : BState} (inv : alignInv1 s t) {frag fragI : String}
    {pvs : List Val} (hc : countQL frag.data = pvs.length)
    (hsub : substQL frag.data pvs = fragI.data) :
    alignInv1 { s with whereClauses := s.whereClauses ++ [frag],
                       params := s.params ++ pvs }
              { t with whereClauses := t.whereClauses ++ [fragI] } := by
  obtain ⟨cds, cdt, hsh, hth, htp, hlen, hcnt, hsb⟩ := inv
  refine ⟨cds, cdt, hsh, hth, htp, by simp [hlen], ?_, ?_⟩
  · show countQL (joinSep " " (s.whereClauses ++ [frag])).data = (s.params ++ pvs).length
    rw [joinSep_concat_count, hcnt, hc]
    simp
  · exact joinSep_concat_subst _ _ _ _ _ _ hcnt hsb hlen hc hsub

/-- Appending one aligned HAVING fragment pair preserves the phase-2
relation. -/
theorem alignInv2_appendH {s t : BState} (inv : alignInv2 s t) {frag fragI : String}
    {pvs : List Val} (hc : countQL frag.data = pvs.length)
    (hsub : substQL frag.data pvs = fragI.data) :
    alignInv2 { s with havingClauses := s.havingClauses ++ [frag],
                       params := s.params ++ pvs }
              { t with havingClauses := t.havingClauses ++ [fragI] } := by
  obtain ⟨cds, cdt, htp, hwlen, hhlen, wps, hps, hsplit, hwcnt, hwsub, hhcnt, hhsub⟩ := inv
  refine ⟨cds, cdt, htp, hwlen, by simp [hhlen], wps, hps ++ pvs,
    by rw [hsplit, List.append_assoc], hwcnt, hwsub, ?_, ?_⟩
  · show countQL (joinSep " " (s.havingClauses ++ [frag])).data = (hps ++ pvs).length
    rw [joinSep_concat_count, hhcnt, hc]
    simp
  · exact joinSep_concat_subst _ _ _ _ _ _ hhcnt hhsub hhlen hc hsub

/-- A phase-1 relation is a phase-2 relation with an empty HAVING suffix. -/
theorem alignInv1_to_2 {s t : BState} (inv : alignInv1 s t) : alignInv2 s t := by
  obtain ⟨cds, cdt, hsh, hth, htp, hlen, hcnt, hsb⟩ := inv
  refine ⟨cds, cdt, htp, hlen, by rw [hsh, hth], s.params, [], by simp, hcnt, hsb, ?_, ?_⟩
  · rw [hsh]
    rfl
  · rw [hsh, hth]
    rfl

/-- `runCalls` on an appended sequence runs the two parts in order. -/
theorem runCalls_append (esc : String → String) (a b : List QCall) (s : BState) :
    runCalls esc (a ++ b) s =
      (match runCalls esc a s with
        | .error e => .error e
        | .ok s1 => runCalls esc b s1) := by
  induction a generalizing s with
  | nil => rfl
  | cons c cs ih =>
    show runCalls esc (c :: (cs ++ b)) s = _
    cases h : stepQ esc c s with
    | error e => simp [runCalls, h]
    | ok s1 => simp [runCalls, h, ih]

/-- `runCallsI` on an appended sequence runs the two parts in order. -/
theorem runCallsI_append (esc : String → String) (a b : List QCall) (s : BState) :
    runCallsI esc (a ++ b) s =
      (match runCallsI esc a s with
        | .error e => .error e
        | .ok s1 => runCallsI esc b s1) := by
  induction a generalizing s with
  | nil => rfl
  | cons c cs ih =>
    show runCallsI esc (c :: (cs ++ b)) s = _
    cases h : stepQI esc c s with
    | error e => simp [runCallsI, h]
    | ok s1 => simp [runCallsI, h, ih]

/-- Appending a placeholder-free fragment (no parameters) preserves the count
invariant on the WHERE side. -/
theorem countInv_appendW0 (s : BState) (frag : String) (hfrag : countQL frag.data = 0)
    (h : countInv s) : countInv { s with whereClauses := s.whereClauses ++ [frag] } := by
  unfold countInv at *
  simp only [sumCount_append, hfrag]
  omega

/-- Appending a placeholder-free fragment (no parameters) preserves the count
invariant on the HAVING side. -/
theorem countInv_appendH0 (s : BState) (frag : String) (hfrag : countQL frag.data = 0)
    (h : countInv s) : countInv { s with havingClauses := s.havingClauses ++ [frag] } := by
  unfold countInv at *
  simp only [sumCount_append, hfrag]
  omega

/-- Count of the exact `whereLike` fragment. -/
theorem countQL_likeX {f : String} (hf : noQ f = true) :
    countQL (mysqlEscapeIdentifier f ++ " LIKE ?").data = 1 := by
  rw [countQS_append, countQL_mysqlEsc hf]
  decide

/-- Substitution through the exact `whereLike` fragment. -/
theorem substQL_likeX {f : String} (hf : noQ f = true) (v : Val) :
    substQL (mysqlEscapeIdentifier f ++ " LIKE ?").data [v] =
      (mysqlEscapeIdentifier f ++ " LIKE " ++ renderVal v).data := by
  rw [show (mysqlEscapeIdentifier f ++ " LIKE ?").data =
      (mysqlEscapeIdentifier f ++ " LIKE ").data ++ ['?'] by simp [strDataAppend]]
  rw [substQL_one (by rw [countQS_append, countQL_mysqlEsc hf]; decide)]
  simp [strDataAppend]

/-- Count of the exact `whereNotLike` fragment. -/
theorem countQL_notLikeX {f : String} (hf : noQ f = true) :
    countQL (mysqlEscapeIdentifier f ++ " NOT LIKE ?").data = 1 := by
  rw [countQS_append, countQL_mysqlEsc hf]
  decide

/-- Substitution through the exact `whereNotLike` fragment. -/
theorem substQL_notLikeX {f : String} (hf : noQ f = true) (v : Val) :
    substQL (mysqlEscapeIdentifier f ++ " NOT LIKE ?").data [v] =
      (mysqlEscapeIdentifier f ++ " NOT LIKE " ++ renderVal v).data := by
  rw [show (mysqlEscapeIdentifier f ++ " NOT LIKE ?").data =
      (mysqlEscapeIdentifier f ++ " NOT LIKE ").data ++ ['?'] by simp [strDataAppend]]
  rw [substQL_one (by rw [countQS_append, countQL_mysqlEsc hf]; decide)]
  simp [strDataAppend]

/-- Count of the `AND`-connected raw-condition fragment. -/
theorem countQL_rawAnd {c : String} (hc : noQ c = true) :
    countQL ("AND " ++ c).data = 0 := by
  rw [countQS_append, countQL_zero_of_noQ hc]
  decide

/-- Count of the `OR`-connected raw-condition fragment. -/
theorem countQL_rawOr {c : String} (hc : noQ c = true) :
    countQL ("OR " ++ c).data = 0 := by
  rw [countQS_append, countQL_zero_of_noQ hc]
  decide

/-- `where` (valued form) preserves the count invariant and the untouched
core fields. -/
theorem whereVal_inv {f op : String} (hf : noQ f = true) (hop : noQ op = true)
    (v : Val) {s : BState} (h : countInv s ∧ coreDefaults s) :
    countInv (whereVal mysqlEscapeIdentifier f v op s) ∧
      coreDefaults (whereVal mysqlEscapeIdentifier f v op s) := by
  unfold whereVal
  split
  · exact ⟨countInv_appendW s _ [v] (countQL_valfragAnd hf hop) h.1, h.2⟩
  · exact ⟨countInv_appendW s _ [v] (countQL_valfrag hf hop) h.1, h.2⟩

/-- One object-form `where` entry preserves the invariants. -/
theorem whereObjStep_inv {kv : String × Val} (hk : noQ kv.1 = true) {s : BState}
    (h : countInv s ∧ coreDefaults s) :
    countInv (whereObjStep mysqlEscapeIdentifier kv s) ∧
      coreDefaults (whereObjStep mysqlEscapeIdentifier kv s) := by
  unfold whereObjStep
  split
  · exact ⟨countInv_appendW s _ [kv.2] (countQL_eqfragAnd hk) h.1, h.2⟩
  · exact ⟨countInv_appendW s _ [kv.2] (countQL_eqfrag hk) h.1, h.2⟩

/-- The object form of `where` preserves the invariants. -/
theorem whereObj_inv : ∀ (kvs : List (String × Val)), (∀ kv ∈ kvs, noQ kv.1 = true) →
    ∀ s : BState, countInv s ∧ coreDefaults s →
      countInv (whereObj mysqlEscapeIdentifier kvs s) ∧
        coreDefaults (whereObj mysqlEscapeIdentifier kvs s) := by
  intro kvs
  induction kvs with
  | nil => intro _ s h; exact h
  | cons kv kvs ih =>
    intro h s hc
    exact ih (fun x hx => h x (List.mem_cons_of_mem _ hx)) _
      (whereObjStep_inv (h kv (List.mem_cons_self _ _)) hc)

/-- The raw form of `where` preserves the invariants. -/
theorem whereRaw_inv {c : String} (hc : noQ c = true) {s : BState}
    (h : countInv s ∧ coreDefaults s) :
    countInv (whereRaw c s) ∧ coreDefaults (whereRaw c s) := by
  unfold whereRaw
  split
  · exact ⟨countInv_appendW0 s _ (countQL_rawAnd hc) h.1, h.2⟩
  · exact ⟨countInv_appendW0 s _ (countQL_zero_of_noQ hc) h.1, h.2⟩

/-- `orWhere` (valued form) preserves the invariants. -/
theorem orWhereVal_inv {f op : String} (hf : noQ f = true) (hop : noQ op = true)
    (v : Val) {s : BState} (h : countInv s ∧ coreDefaults s) :
    countInv (orWhereVal mysqlEscapeIdentifier f v op s) ∧
      coreDefaults (orWhereVal mysqlEscapeIdentifier f v op s) := by
  unfold orWhereVal
  split
  · exact whereVal_inv hf hop v h
  · exact ⟨countInv_appendW s _ [v] (countQL_valfragOr hf hop) h.1, h.2⟩

/-- The object form of `orWhere` preserves the invariants. -/
theorem orWhereObj_inv {kvs : List (String × Val)} (h : ∀ kv ∈ kvs, noQ kv.1 = true)
    {s : BState} (hc : countInv s ∧ coreDefaults s) :
    countInv (orWhereObj mysqlEscapeIdentifier kvs s) ∧
      coreDefaults (orWhereObj mysqlEscapeIdentifier kvs s) := by
  unfold orWhereObj
  split
  · exact whereObj_inv kvs h s hc
  · dsimp only
    refine ⟨countInv_appendW s _ (kvs.map (·.2)) ?_ hc.1, hc.2⟩
    rw [countQL_orobjfrag kvs h]
    simp

/-- The raw form of `orWhere` preserves the invariants. -/
theorem orWhereRaw_inv {c : String} (hc : noQ c = true) {s : BState}
    (h : countInv s ∧ coreDefaults s) :
    countInv (orWhereRaw c s) ∧ coreDefaults (orWhereRaw c s) := by
  unfold orWhereRaw
  split
  · exact whereRaw_inv hc h
  · exact ⟨countInv_appendW0 s _ (countQL_rawOr hc) h.1, h.2⟩

/-- `having` (valued form) preserves the invariants. -/
theorem havingVal_inv {f op : String} (hf : noQ f = true) (hop : noQ op = true)
    (v : Val) {s : BState} (h : countInv s ∧ coreDefaults s) :
    countInv (havingVal mysqlEscapeIdentifier f v op s) ∧
      coreDefaults (havingVal mysqlEscapeIdentifier f v op s) := by
  unfold havingVal
  exact ⟨countInv_appendH s _ [v] (countQL_valfrag hf hop) h.1, h.2⟩

/-- One object-form `having` entry preserves the invariants. -/
theorem havingObjStep_inv {kv : String × Val} (hk : noQ kv.1 = true) {s : BState}
    (h : countInv s ∧ coreDefaults s) :
    countInv (havingObjStep mysqlEscapeIdentifier kv s) ∧
      coreDefaults (havingObjStep mysqlEscapeIdentifier kv s) := by
  unfold havingObjStep
  exact ⟨countInv_appendH s _ [kv.2] (countQL_eqfrag hk) h.1, h.2⟩

/-- The object form of `having` preserves the invariants. -/
theorem havingObj_inv : ∀ (kvs : List (String × Val)), (∀ kv ∈ kvs, noQ kv.1 = true) →
    ∀ s : BState, countInv s ∧ coreDefaults s →
      countInv (havingObj mysqlEscapeIdentifier kvs s) ∧
        coreDefaults (havingObj mysqlEscapeIdentifier kvs s) := by
  intro kvs
  induction kvs with
  | nil => intro _ s h; exact h
  | cons kv kvs ih =>
    intro h s hc
    exact ih (fun x hx => h x (List.mem_cons_of_mem _ hx)) _
      (havingObjStep_inv (h kv (List.mem_cons_self _ _)) hc)

/-- The raw form of `having` preserves the invariants. -/
theorem havingRaw_inv {c : String} (hc : noQ c = true) {s : BState}
    (h : countInv s ∧ coreDefaults s) :
    countInv (havingRaw c s) ∧ coreDefaults (havingRaw c s) := by
  unfold havingRaw
  exact ⟨countInv_appendH0 s _ (countQL_zero_of_noQ hc) h.1, h.2⟩

/-- `orHaving` (valued form) preserves the invariants. -/
theorem orHavingVal_inv {f op : String} (hf : noQ f = true) (hop : noQ op = true)
    (v : Val) {s : BState} (h : countInv s ∧ coreDefaults s) :
    countInv (orHavingVal mysqlEscapeIdentifier f v op s) ∧
      coreDefaults (orHavingVal mysqlEscapeIdentifier f v op s) := by
  unfold orHavingVal
  split
  · exact havingVal_inv hf hop v h
  · exact ⟨countInv_appendH s _ [v] (countQL_valfragOr hf hop) h.1, h.2⟩

/-- The object form of `orHaving` preserves the invariants. -/
theorem orHavingObj_inv {kvs : List (String × Val)} (h : ∀ kv ∈ kvs, noQ kv.1 = true)
    {s : BState} (hc : countInv s ∧ coreDefaults s) :
    countInv (orHavingObj mysqlEscapeIdentifier kvs s) ∧
      coreDefaults (orHavingObj mysqlEscapeIdentifier kvs s) := by
  unfold orHavingObj
  split
  · exact havingObj_inv kvs h s hc
  · dsimp only
    refine ⟨countInv_appendH s _ (kvs.map (·.2)) ?_ hc.1, hc.2⟩
    rw [countQL_orobjfrag kvs h]
    simp

/-- The raw form of `orHaving` preserves the invariants. -/
theorem orHavingRaw_inv {c : String} (hc : noQ c = true) {s : BState}
    (h : countInv s ∧ coreDefaults s) :
    countInv (orHavingRaw c s) ∧ coreDefaults (orHavingRaw c s) := by
  unfold orHavingRaw
  split
  · exact havingRaw_inv hc h
  · exact ⟨countInv_appendH0 s _ (countQL_rawOr hc) h.1, h.2⟩

/-- One successful dispatch step preserves the count invariant and the core
defaults, provided the call's strings are placeholder-free. -/
theorem stepQ_inv {c : QCall} (hg : goodCall c = true) {s s' : BState}
    (h : stepQ mysqlEscapeIdentifier c s = .ok s')
    (hinv : countInv s ∧ coreDefaults s) : countInv s' ∧ coreDefaults s' := by
  cases c with
  | wVal f v op =>
    simp only [goodCall, Bool.and_eq_true] at hg
    simp only [stepQ, Except.ok.injEq] at h
    subst h
    exact whereVal_inv hg.1 hg.2 v hinv
  | wObj kvs =>
    simp only [goodCall, List.all_eq_true] at hg
    simp only [stepQ, Except.ok.injEq] at h
    subst h
    exact whereObj_inv kvs (fun kv hk => hg kv hk) s hinv
  | wRaw c =>
    simp only [goodCall] at hg
    simp only [stepQ, Except.ok.injEq] at h
    subst h
    exact whereRaw_inv hg hinv
  | owVal f v op =>
    simp only [goodCall, Bool.and_eq_true] at hg
    simp only [stepQ, Except.ok.injEq] at h
    subst h
    exact orWhereVal_inv hg.1 hg.2 v hinv
  | owObj kvs =>
    simp only [goodCall, List.all_eq_true] at hg
    simp only [stepQ, Except.ok.injEq] at h
    subst h
    exact orWhereObj_inv (fun kv hk => hg kv hk) hinv
  | owRaw c =>
    simp only [goodCall] at hg
    simp only [stepQ, Except.ok.injEq] at h
    subst h
    exact orWhereRaw_inv hg hinv
  | wIn f vs =>
    simp only [goodCall] at hg
    simp only [stepQ] at h
    unfold whereIn at h
    by_cases hvs : vs = []
    · rw [if_pos hvs] at h
      simp at h
    · rw [if_neg hvs] at h
      simp only [Except.ok.injEq] at h
      subst h
      exact ⟨countInv_appendW s _ vs (countQL_infrag hg " IN (" (by decide) vs) hinv.1,
        hinv.2⟩
  | wNotIn f vs =>
    simp only [goodCall] at hg
    simp only [stepQ] at h
    unfold whereNotIn at h
    by_cases hvs : vs = []
    · rw [if_pos hvs] at h
      simp at h
    · rw [if_neg hvs] at h
      simp only [Except.ok.injEq] at h
      subst h
      exact ⟨countInv_appendW s _ vs (countQL_infrag hg " NOT IN (" (by decide) vs) hinv.1,
        hinv.2⟩
  | wLike f v =>
    simp only [goodCall] at hg
    simp only [stepQ, Except.ok.injEq] at h
    subst h
    unfold whereLike
    exact ⟨countInv_appendW s _ [v] (countQL_likeX hg) hinv.1, hinv.2⟩
  | wNotLike f v =>
    simp only [goodCall] at hg
    simp only [stepQ, Except.ok.injEq] at h
    subst h
    unfold whereNotLike
    exact ⟨countInv_appendW s _ [v] (countQL_notLikeX hg) hinv.1, hinv.2⟩
  | hVal f v op =>
    simp only [goodCall, Bool.and_eq_true] at hg
    simp only [stepQ, Except.ok.injEq] at h
    subst h
    exact havingVal_inv hg.1 hg.2 v hinv
  | hObj kvs =>
    simp only [goodCall, List.all_eq_true] at hg
    simp only [stepQ, Except.ok.injEq] at h
    subst h
    exact havingObj_inv kvs (fun kv hk => hg kv hk) s hinv
  | hRaw c =>
    simp only [goodCall] at hg
    simp only [stepQ, Except.ok.injEq] at h
    subst h
    exact havingRaw_inv hg hinv
  | ohVal f v op =>
    simp only [goodCall, Bool.and_eq_true] at hg
    simp only [stepQ, Except.ok.injEq] at h
    subst h
    exact orHavingVal_inv hg.1 hg.2 v hinv
  | ohObj kvs =>
    simp only [goodCall, List.all_eq_true] at hg
    simp only [stepQ, Except.ok.injEq] at h
    subst h
    exact orHavingObj_inv (fun kv hk => hg kv hk) hinv
  | ohRaw c =>
    simp only [goodCall] at hg
    simp only [stepQ, Except.ok.injEq] at h
    subst h
    exact orHavingRaw_inv hg hinv

/-- A successful run of any call sequence with placeholder-free strings
preserves the count invariant and the core defaults. -/
theorem runCalls_inv : ∀ (cs : List QCall), (∀ c ∈ cs, goodCall c = true) →
    ∀ s s' : BState, runCalls mysqlEscapeIdentifier cs s = .ok s' →
      countInv s ∧ coreDefaults s → countInv s' ∧ coreDefaults s' := by
  intro cs
  induction cs with
  | nil =>
    intro _ s s' h hinv
    cases h
    exact hinv
  | cons c cs ih =>
    intro hg s s' h hinv
    cases h1 : stepQ mysqlEscapeIdentifier c s with
    | error e => simp [runCalls, h1] at h
    | ok s1 =>
      simp only [runCalls, h1] at h
      exact ih (fun x hx => hg x (List.mem_cons_of_mem _ hx)) s1 s' h
        (stepQ_inv (hg c (List.mem_cons_self _ _)) h1 hinv)

/-- Appending the same placeholder-free fragment to both sides preserves the
phase-1 relation. -/
theorem alignInv1_appendW0 {s t : BState} (inv : alignInv1 s t) {frag : String}
    (hc : countQL frag.data = 0) :
    alignInv1 { s with whereClauses := s.whereClauses ++ [frag] }
              { t with whereClauses := t.whereClauses ++ [frag] } := by
  obtain ⟨cds, cdt, hsh, hth, htp, hlen, hcnt, hsb⟩ := inv
  refine ⟨cds, cdt, hsh, hth, htp, by simp [hlen], ?_, ?_⟩
  · show countQL (joinSep " " (s.whereClauses ++ [frag])).data = s.params.length
    rw [joinSep_concat_count, hcnt, hc]
    omega
  · have h2 := joinSep_concat_subst s.whereClauses t.whereClauses frag frag s.params []
      hcnt hsb hlen (by rw [hc]; rfl) (substQL_nil_params _)
    simpa using h2

/-- Appending the same placeholder-free fragment to both HAVING lists
preserves the phase-2 relation. -/
theorem alignInv2_appendH0 {s t : BState} (inv : alignInv2 s t) {frag : String}
    (hc : countQL frag.data = 0) :
    alignInv2 { s with havingClauses := s.havingClauses ++ [frag] }
              { t with havingClauses := t.havingClauses ++ [frag] } := by
  obtain ⟨cds, cdt, htp, hwlen, hhlen, wps, hps, hsplit, hwcnt, hwsub, hhcnt, hhsub⟩ := inv
  refine ⟨cds, cdt, htp, hwlen, by simp [hhlen], wps, hps, hsplit, hwcnt, hwsub, ?_, ?_⟩
  · show countQL (joinSep " " (s.havingClauses ++ [frag])).data = hps.length
    rw [joinSep_concat_count, hhcnt, hc]
    omega
  · have h2 := joinSep_concat_subst s.havingClauses t.havingClauses frag frag hps []
      hhcnt hhsub hhlen (by rw [hc]; rfl) (substQL_nil_params _)
    simpa using h2

/-- `where` (valued form) runs in step with its inline mirror. -/
theorem whereVal_align1 {s t : BState} (inv : alignInv1 s t) {f op : String}
    (hf : noQ f = true) (hop : noQ op = true) (v : Val) :
    alignInv1 (whereVal mysqlEscapeIdentifier f v op s)
              (whereValI mysqlEscapeIdentifier f v op t) := by
  obtain ⟨cd1, cd2, h3, h4, h5, hlen, h7, h8⟩ := inv
  have inv' : alignInv1 s t := ⟨cd1, cd2, h3, h4, h5, hlen, h7, h8⟩
  by_cases hpos : s.whereClauses.length > 0
  · have hpt : t.whereClauses.length > 0 := by omega
    unfold whereVal whereValI
    rw [if_pos hpos, if_pos hpt]
    exact alignInv1_appendW inv' (countQL_valfragAnd hf hop) (substQL_valfragAnd hf hop v)
  · have hpt : ¬ t.whereClauses.length > 0 := by omega
    unfold whereVal whereValI
    rw [if_neg hpos, if_neg hpt]
    exact alignInv1_appendW inv' (countQL_valfrag hf hop) (substQL_valfrag hf hop v)

/-- One object-form `where` entry runs in step with its inline mirror. -/
theorem whereObjStep_align1 {s t : BState} (inv : alignInv1 s t) {kv : String × Val}
    (hk : noQ kv.1 = true) :
    alignInv1 (whereObjStep mysqlEscapeIdentifier kv s)
              (whereObjStepI mysqlEscapeIdentifier kv t) := by
  obtain ⟨cd1, cd2, h3, h4, h5, hlen, h7, h8⟩ := inv
  have inv' : alignInv1 s t := ⟨cd1, cd2, h3, h4, h5, hlen, h7, h8⟩
  by_cases hpos : s.whereClauses.length > 0
  · have hpt : t.whereClauses.length > 0 := by omega
    unfold whereObjStep whereObjStepI
    rw [if_pos hpos, if_pos hpt]
    exact alignInv1_appendW inv' (countQL_eqfragAnd hk) (substQL_eqfragAnd hk kv.2)
  · have hpt : ¬ t.whereClauses.length > 0 := by omega
    unfold whereObjStep whereObjStepI
    rw [if_neg hpos, if_neg hpt]
    exact alignInv1_appendW inv' (countQL_eqfrag hk) (substQL_eqfrag hk kv.2)

/-- The object form of `where` runs in step with its inline mirror. -/
theorem whereObj_align1 : ∀ (kvs : List (String × Val)), (∀ kv ∈ kvs, noQ kv.1 = true) →
    ∀ s t : BState, alignInv1 s t →
      alignInv1 (whereObj mysqlEscapeIdentifier kvs s)
                (whereObjI mysqlEscapeIdentifier kvs t) := by
  intro kvs
  induction kvs with
  | nil => intro _ s t inv; exact inv
  | cons kv kvs ih =>
    intro h s t inv
    exact ih (fun x hx => h x (List.mem_cons_of_mem _ hx)) _ _
      (whereObjStep_align1 inv (h kv (List.mem_cons_self _ _)))

/-- The raw form of `where` runs in step with itself on the mirror. -/
theorem whereRaw_align1 {s t : BState} (inv : alignInv1 s t) {c : String}
    (hc : noQ c = true) : alignInv1 (whereRaw c s) (whereRaw c t) := by
  obtain ⟨cd1, cd2, h3, h4, h5, hlen, h7, h8⟩ := inv
  have inv' : alignInv1 s t := ⟨cd1, cd2, h3, h4, h5, hlen, h7, h8⟩
  by_cases hpos : s.whereClauses.length > 0
  · have hpt : t.whereClauses.length > 0 := by omega
    unfold whereRaw
    rw [if_pos hpos, if_pos hpt]
    exact alignInv1_appendW0 inv' (countQL_rawAnd hc)
  · have hpt : ¬ t.whereClauses.length > 0 := by omega
    unfold whereRaw
    rw [if_neg hpos, if_neg hpt]
    exact alignInv1_appendW0 inv' (countQL_zero_of_noQ hc)

/-- `orWhere` (valued form) runs in step with its inline mirror. -/
theorem orWhereVal_align1 {s t : BState} (inv : alignInv1 s t) {f op : String}
    (hf : noQ f = true) (hop : noQ op = true) (v : Val) :
    alignInv1 (orWhereVal mysqlEscapeIdentifier f v op s)
              (orWhereValI mysqlEscapeIdentifier f v op t) := by
  obtain ⟨cd1, cd2, h3, h4, h5, hlen, h7, h8⟩ := inv
  have inv' : alignInv1 s t := ⟨cd1, cd2, h3, h4, h5, hlen, h7, h8⟩
  by_cases h0 : s.whereClauses.length = 0
  · have h0t : t.whereClauses.length = 0 := by omega
    unfold orWhereVal orWhereValI
    rw [if_pos h0, if_pos h0t]
    exact whereVal_align1 inv' hf hop v
  · have h0t : ¬ t.whereClauses.length = 0 := by omega
    unfold orWhereVal orWhereValI
    rw [if_neg h0, if_neg h0t]
    exact alignInv1_appendW inv' (countQL_valfragOr hf hop) (substQL_valfragOr hf hop v)

/-- The object form of `orWhere` runs in step with its inline mirror. -/
theorem orWhereObj_align1 {s t : BState} (inv : alignInv1 s t)
    {kvs : List (String × Val)} (h : ∀ kv ∈ kvs, noQ kv.1 = true) :
    alignInv1 (orWhereObj mysqlEscapeIdentifier kvs s)
              (orWhereObjI mysqlEscapeIdentifier kvs t) := by
  obtain ⟨cd1, cd2, h3, h4, h5, hlen, h7, h8⟩ := inv
  have inv' : alignInv1 s t := ⟨cd1, cd2, h3, h4, h5, hlen, h7, h8⟩
  by_cases h0 : s.whereClauses.length = 0
  · have h0t : t.whereClauses.length = 0 := by omega
    unfold orWhereObj orWhereObjI
    rw [if_pos h0, if_pos h0t]
    exact whereObj_align1 kvs h s t inv'
  · have h0t : ¬ t.whereClauses.length = 0 := by omega
    unfold orWhereObj orWhereObjI
    rw [if_neg h0, if_neg h0t]
    dsimp only
    refine alignInv1_appendW inv' ?_ (substQL_orobjfrag kvs h)
    rw [countQL_orobjfrag kvs h]
    simp

/-- The raw form of `orWhere` runs in step with itself on the mirror. -/
theorem orWhereRaw_align1 {s t : BState} (inv : alignInv1 s t) {c : String}
    (hc : noQ c = true) : alignInv1 (orWhereRaw c s) (orWhereRaw c t) := by
  obtain ⟨cd1, cd2, h3, h4, h5, hlen, h7, h8⟩ := inv
  have inv' : alignInv1 s t := ⟨cd1, cd2, h3, h4, h5, hlen, h7, h8⟩
  by_cases h0 : s.whereClauses.length = 0
  · have h0t : t.whereClauses.length = 0 := by omega
    unfold orWhereRaw
    rw [if_pos h0, if_pos h0t]
    exact whereRaw_align1 inv' hc
  · have h0t : ¬ t.whereClauses.length = 0 := by omega
    unfold orWhereRaw
    rw [if_neg h0, if_neg h0t]
    exact alignInv1_appendW0 inv' (countQL_rawOr hc)

/-- `having` (valued form) runs in step with its inline mirror. -/
theorem havingVal_align2 {s t : BState} (inv : alignInv2 s t) {f op : String}
    (hf : noQ f = true) (hop : noQ op = true) (v : Val) :
    alignInv2 (havingVal mysqlEscapeIdentifier f v op s)
              (havingValI mysqlEscapeIdentifier f v op t) := by
  unfold havingVal havingValI
  exact alignInv2_appendH inv (countQL_valfrag hf hop) (substQL_valfrag hf hop v)

/-- One object-form `having` entry runs in step with its inline mirror. -/
theorem havingObjStep_align2 {s t : BState} (inv : alignInv2 s t) {kv : String × Val}
    (hk : noQ kv.1 = true) :
    alignInv2 (havingObjStep mysqlEscapeIdentifier kv s)
              (havingObjStepI mysqlEscapeIdentifier kv t) := by
  unfold havingObjStep havingObjStepI
  exact alignInv2_appendH inv (countQL_eqfrag hk) (substQL_eqfrag hk kv.2)

/-- The object form of `having` runs in step with its inline mirror. -/
theorem havingObj_align2 : ∀ (kvs : List (String × Val)), (∀ kv ∈ kvs, noQ kv.1 = true) →
    ∀ s t : BState, alignInv2 s t →
      alignInv2 (havingObj mysqlEscapeIdentifier kvs s)
                (havingObjI mysqlEscapeIdentifier kvs t) := by
  intro kvs
  induction kvs with
  | nil => intro _ s t inv; exact inv
  | cons kv kvs ih =>
    intro h s t inv
    exact ih (fun x hx => h x (List.mem_cons_of_mem _ hx)) _ _
      (havingObjStep_align2 inv (h kv (List.mem_cons_self _ _)))

/-- The raw form of `having` runs in step with itself on the mirror. -/
theorem havingRaw_align2 {s t : BState} (inv : alignInv2 s t) {c : String}
    (hc : noQ c = true) : alignInv2 (havingRaw c s) (havingRaw c t) := by
  unfold havingRaw
  exact alignInv2_appendH0 inv (countQL_zero_of_noQ hc)

/-- `orHaving` (valued form) runs in step with its inline mirror. -/
theorem orHavingVal_align2 {s t : BState} (inv : alignInv2 s t) {f op : String}
    (hf : noQ f = true) (hop : noQ op = true) (v : Val) :
    alignInv2 (orHavingVal mysqlEscapeIdentifier f v op s)
              (orHavingValI mysqlEscapeIdentifier f v op t) := by
  obtain ⟨cd1, cd2, h3, hwlen, hhlen, rest⟩ := inv
  have inv' : alignInv2 s t := ⟨cd1, cd2, h3, hwlen, hhlen, rest⟩
  by_cases h0 : s.havingClauses.length = 0
  · have h0t : t.havingClauses.length = 0 := by omega
    unfold orHavingVal orHavingValI
    rw [if_pos h0, if_pos h0t]
    exact havingVal_align2 inv' hf hop v
  · have h0t : ¬ t.havingClauses.length = 0 := by omega
    unfold orHavingVal orHavingValI
    rw [if_neg h0, if_neg h0t]
    exact alignInv2_appendH inv' (countQL_valfragOr hf hop) (substQL_valfragOr hf hop v)

/-- The object form of `orHaving` runs in step with its inline mirror. -/
theorem orHavingObj_align2 {s t : BState} (inv : alignInv2 s t)
    {kvs : List (String × Val)} (h : ∀ kv ∈ kvs, noQ kv.1 = true) :
    alignInv2 (orHavingObj mysqlEscapeIdentifier kvs s)
              (orHavingObjI mysqlEscapeIdentifier kvs t) := by
  obtain ⟨cd1, cd2, h3, hwlen, hhlen, rest⟩ := inv
  have inv' : alignInv2 s t := ⟨cd1, cd2, h3, hwlen, hhlen, rest⟩
  by_cases h0 : s.havingClauses.length = 0
  · have h0t : t.havingClauses.length = 0 := by omega
    unfold orHavingObj orHavingObjI
    rw [if_pos h0, if_pos h0t]
    exact havingObj_align2 kvs h s t inv'
  · have h0t : ¬ t.havingClauses.length = 0 := by omega
    unfold orHavingObj orHavingObjI
    rw [if_neg h0, if_neg h0t]
    dsimp only
    refine alignInv2_appendH inv' ?_ (substQL_orobjfrag kvs h)
    rw [countQL_orobjfrag kvs h]
    simp

/-- The raw form of `orHaving` runs in step with itself on the mirror. -/
theorem orHavingRaw_align2 {s t : BState} (inv : alignInv2 s t) {c : String}
    (hc : noQ c = true) : alignInv2 (orHavingRaw c s) (orHavingRaw c t) := by
  obtain ⟨cd1, cd2, h3, hwlen, hhlen, rest⟩ := inv
  have inv' : alignInv2 s t := ⟨cd1, cd2, h3, hwlen, hhlen, rest⟩
  by_cases h0 : s.havingClauses.length = 0
  · have h0t : t.havingClauses.length = 0 := by omega
    unfold orHavingRaw
    rw [if_pos h0, if_pos h0t]
    exact havingRaw_align2 inv' hc
  · have h0t : ¬ t.havingClauses.length = 0 := by omega
    unfold orHavingRaw
    rw [if_neg h0, if_neg h0t]
    exact alignInv2_appendH0 inv' (countQL_rawOr hc)

/-- One where-family dispatch step preserves phase-1 alignment: both
semantics throw the same error or both succeed in step. -/
theorem stepQ_align1 {c : QCall} (hg : goodCall c = true)
    (hw : isHavingCall c = false) {s t : BState} (inv : alignInv1 s t) :
    (∃ e, stepQ mysqlEscapeIdentifier c s = .error e ∧
          stepQI mysqlEscapeIdentifier c t = .error e) ∨
    (∃ s' t', stepQ mysqlEscapeIdentifier c s = .ok s' ∧
              stepQI mysqlEscapeIdentifier c t = .ok t' ∧ alignInv1 s' t') := by
  cases c with
  | wVal f v op =>
    simp only [goodCall, Bool.and_eq_true] at hg
    exact Or.inr ⟨_, _, rfl, rfl, whereVal_align1 inv hg.1 hg.2 v⟩
  | wObj kvs =>
    simp only [goodCall, List.all_eq_true] at hg
    exact Or.inr ⟨_, _, rfl, rfl, whereObj_align1 kvs (fun kv hk => hg kv hk) s t inv⟩
  | wRaw c =>
    simp only [goodCall] at hg
    exact Or.inr ⟨_, _, rfl, rfl, whereRaw_align1 inv hg⟩
  | owVal f v op =>
    simp only [goodCall, Bool.and_eq_true] at hg
    exact Or.inr ⟨_, _, rfl, rfl, orWhereVal_align1 inv hg.1 hg.2 v⟩
  | owObj kvs =>
    simp only [goodCall, List.all_eq_true] at hg
    exact Or.inr ⟨_, _, rfl, rfl, orWhereObj_align1 inv (fun kv hk => hg kv hk)⟩
  | owRaw c =>
    simp only [goodCall] at hg
    exact Or.inr ⟨_, _, rfl, rfl, orWhereRaw_align1 inv hg⟩
  | wIn f vs =>
    simp only [goodCall] at hg
    by_cases hvs : vs = []
    · subst hvs
      exact Or.inl ⟨_, rfl, rfl⟩
    · have hs : stepQ mysqlEscapeIdentifier (QCall.wIn f vs) s = .ok { s with
          whereClauses := s.whereClauses ++ [mysqlEscapeIdentifier f ++ " IN (" ++
            joinSep ", " (vs.map fun _ => "?") ++ ")"],
          params := s.params ++ vs } := by
        show whereIn mysqlEscapeIdentifier f vs s = _
        unfold whereIn
        rw [if_neg hvs]
      have ht : stepQI mysqlEscapeIdentifier (QCall.wIn f vs) t = .ok { t with
          whereClauses := t.whereClauses ++ [mysqlEscapeIdentifier f ++ " IN (" ++
            joinSep ", " (vs.map renderVal) ++ ")"] } := by
        show whereInI mysqlEscapeIdentifier f vs t = _
        unfold whereInI
        rw [if_neg hvs]
      exact Or.inr ⟨_, _, hs, ht, alignInv1_appendW inv
        (countQL_infrag hg " IN (" (by decide) vs)
        (substQL_infrag hg " IN (" (by decide) vs)⟩
  | wNotIn f vs =>
    simp only [goodCall] at hg
    by_cases hvs : vs = []
    · subst hvs
      exact Or.inl ⟨_, rfl, rfl⟩
    · have hs : stepQ mysqlEscapeIdentifier (QCall.wNotIn f vs) s = .ok { s with
          whereClauses := s.whereClauses ++ [mysqlEscapeIdentifier f ++ " NOT IN (" ++
            joinSep ", " (vs.map fun _ => "?") ++ ")"],
          params := s.params ++ vs } := by
        show whereNotIn mysqlEscapeIdentifier f vs s = _
        unfold whereNotIn
        rw [if_neg hvs]
      have ht : stepQI mysqlEscapeIdentifier (QCall.wNotIn f vs) t = .ok { t with
          whereClauses := t.whereClauses ++ [mysqlEscapeIdentifier f ++ " NOT IN (" ++
            joinSep ", " (vs.map renderVal) ++ ")"] } := by
        show whereNotInI mysqlEscapeIdentifier f vs t = _
        unfold whereNotInI
        rw [if_neg hvs]
      exact Or.inr ⟨_, _, hs, ht, alignInv1_appendW inv
        (countQL_infrag hg " NOT IN (" (by decide) vs)
        (substQL_infrag hg " NOT IN (" (by decide) vs)⟩
  | wLike f v =>
    simp only [goodCall] at hg
    refine Or.inr ⟨_, _, rfl, rfl, ?_⟩
    unfold whereLike whereLikeI
    exact alignInv1_appendW inv (countQL_likeX hg) (substQL_likeX hg v)
  | wNotLike f v =>
    simp only [goodCall] at hg
    refine Or.inr ⟨_, _, rfl, rfl, ?_⟩
    unfold whereNotLike whereNotLikeI
    exact alignInv1_appendW inv (countQL_notLikeX hg) (substQL_notLikeX hg v)
  | hVal f v op => simp [isHavingCall] at hw
  | hObj kvs => simp [isHavingCall] at hw
  | hRaw c => simp [isHavingCall] at hw
  | ohVal f v op => simp [isHavingCall] at hw
  | ohObj kvs => simp [isHavingCall] at hw
  | ohRaw c => simp [isHavingCall] at hw

/-- One having-family dispatch step preserves phase-2 alignment (having-family
calls never throw). -/
theorem stepQ_align2 {c : QCall} (hg : goodCall c = true)
    (hh : isHavingCall c = true) {s t : BState} (inv : alignInv2 s t) :
    ∃ s' t', stepQ mysqlEscapeIdentifier c s = .ok s' ∧
             stepQI mysqlEscapeIdentifier c t = .ok t' ∧ alignInv2 s' t' := by
  cases c with
  | hVal f v op =>
    simp only [goodCall, Bool.and_eq_true] at hg
    exact ⟨_, _, rfl, rfl, havingVal_align2 inv hg.1 hg.2 v⟩
  | hObj kvs =>
    simp only [goodCall, List.all_eq_true] at hg
    exact ⟨_, _, rfl, rfl, havingObj_align2 kvs (fun kv hk => hg kv hk) s t inv⟩
  | hRaw c =>
    simp only [goodCall] at hg
    exact ⟨_, _, rfl, rfl, havingRaw_align2 inv hg⟩
  | ohVal f v op =>
    simp only [goodCall, Bool.and_eq_true] at hg
    exact ⟨_, _, rfl, rfl, orHavingVal_align2 inv hg.1 hg.2 v⟩
  | ohObj kvs =>
    simp only [goodCall, List.all_eq_true] at hg
    exact ⟨_, _, rfl, rfl, orHavingObj_align2 inv (fun kv hk => hg kv hk)⟩
  | ohRaw c =>
    simp only [goodCall] at hg
    exact ⟨_, _, rfl, rfl, orHavingRaw_align2 inv hg⟩
  | wVal f v op => simp [isHavingCall] at hh
  | wObj kvs => simp [isHavingCall] at hh
  | wRaw c => simp [isHavingCall] at hh
  | owVal f v op => simp [isHavingCall] at hh
  | owObj kvs => simp [isHavingCall] at hh
  | owRaw c => simp [isHavingCall] at hh
  | wIn f vs => simp [isHavingCall] at hh
  | wNotIn f vs => simp [isHavingCall] at hh
  | wLike f v => simp [isHavingCall] at hh
  | wNotLike f v => simp [isHavingCall] at hh

/-- Running an all-having-family sequence keeps the two semantics in phase-2
step. -/
theorem runCalls_align2 : ∀ (cs : List QCall), (∀ c ∈ cs, goodCall c = true) →
    (∀ c ∈ cs, isHavingCall c = true) →
    ∀ s t : BState, alignInv2 s t →
      ∃ s' t', runCalls mysqlEscapeIdentifier cs s = .ok s' ∧
               runCallsI mysqlEscapeIdentifier cs t = .ok t' ∧ alignInv2 s' t' := by
  intro cs
  induction cs with
  | nil => intro _ _ s t inv; exact ⟨s, t, rfl, rfl, inv⟩
  | cons c cs ih =>
    intro hg hh s t inv
    obtain ⟨s1, t1, h1, h1', inv1⟩ := stepQ_align2 (hg c (List.mem_cons_self _ _))
      (hh c (List.mem_cons_self _ _)) inv
    obtain ⟨s', t', h2, h2', inv2⟩ := ih (fun x hx => hg x (List.mem_cons_of_mem _ hx))
      (fun x hx => hh x (List.mem_cons_of_mem _ hx)) s1 t1 inv1
    exact ⟨s', t', by simp [runCalls, h1, h2], by simp [runCallsI, h1', h2'], inv2⟩

/-- A phased run (no where-family call after a having-family call) that
succeeds has a successful inline run ending phase-2 aligned with it. -/
theorem runCalls_phasedAux : ∀ (cs : List QCall), (∀ c ∈ cs, goodCall c = true) →
    phasedOk cs = true →
    ∀ s t : BState, alignInv1 s t →
      ∀ s', runCalls mysqlEscapeIdentifier cs s = .ok s' →
        ∃ t', runCallsI mysqlEscapeIdentifier cs t = .ok t' ∧ alignInv2 s' t' := by
  intro cs
  induction cs with
  | nil =>
    intro _ _ s t inv s' h
    cases h
    exact ⟨t, rfl, alignInv1_to_2 inv⟩
  | cons c cs ih =>
    intro hg hph s t inv s' hrun
    by_cases hc : isHavingCall c = true
    · have hall : ∀ x ∈ cs, isHavingCall x = true := by
        unfold phasedOk at hph
        rw [List.dropWhile_cons] at hph
        simp [hc] at hph
        exact hph
      obtain ⟨s1, t1, h1, h1', inv1⟩ := stepQ_align2 (hg c (List.mem_cons_self _ _)) hc
        (alignInv1_to_2 inv)
      have hrest : runCalls mysqlEscapeIdentifier cs s1 = .ok s' := by
        simp only [runCalls, h1] at hrun
        exact hrun
      obtain ⟨s2, t2, h2, h2', inv2⟩ := runCalls_align2 cs
        (fun x hx => hg x (List.mem_cons_of_mem _ hx)) hall s1 t1 inv1
      have hss : s2 = s' := by
        rw [h2] at hrest
        exact Except.ok.inj hrest
      subst hss
      exact ⟨t2, by simp [runCallsI, h1', h2'], inv2⟩
    · have hcF : isHavingCall c = false := by
        cases hx : isHavingCall c
        · rfl
        · exact absurd hx hc
      have hph' : phasedOk cs = true := by
        unfold phasedOk at hph ⊢
        rw [List.dropWhile_cons] at hph
        simpa [hcF] using hph
      rcases stepQ_align1 (hg c (List.mem_cons_self _ _)) hcF inv with
        ⟨e, he, _⟩ | ⟨s1, t1, h1, h1', inv1⟩
      · simp [runCalls, he] at hrun
      · have hrest : runCalls mysqlEscapeIdentifier cs s1 = .ok s' := by
          simp only [runCalls, h1] at hrun
          exact hrun
        obtain ⟨t', ht', inv'⟩ := ih (fun x hx => hg x (List.mem_cons_of_mem _ hx)) hph'
          s1 t1 inv1 s' hrest
        exact ⟨t', by simp [runCallsI, h1', ht'], inv'⟩

/-- With the never-touched builder fields at their defaults,
`buildSelectQuery` emits `SELECT *` followed by the optional WHERE block and
the optional HAVING block. -/
theorem buildSelect_core {s : BState} (h : coreDefaults s) :
    (buildSelect mysqlLimitSyntax s).data =
      "SELECT *".data ++
        (if s.whereClauses.length > 0
          then (" WHERE " ++ joinSep " " s.whereClauses).data else []) ++
        (if s.havingClauses.length > 0
          then (" HAVING " ++ joinSep " " s.havingClauses).data else []) := by
  obtain ⟨h1, h2, h3, h4, h5, h6, h7⟩ := h
  by_cases hw : s.whereClauses.length > 0 <;> by_cases hh : s.havingClauses.length > 0 <;>
    simp [buildSelect, h1, h2, h3, h4, h5, h6, h7, hw, hh, strDataAppend, joinSep]

/-- The compiled SELECT of a state satisfying the count invariant has exactly
`params.length` placeholders. -/
theorem countQL_buildSelect {s : BState} (hcd : coreDefaults s) (hinv : countInv s) :
    countQL (buildSelect mysqlLimitSyntax s).data = s.params.length := by
  rw [buildSelect_core hcd, countQL_append, countQL_append]
  have h0 : countQL "SELECT *".data = 0 := by decide
  have hwb : countQL (if s.whereClauses.length > 0
      then (" WHERE " ++ joinSep " " s.whereClauses).data else []) =
      sumCount s.whereClauses := by
    by_cases hw : s.whereClauses.length > 0
    · rw [if_pos hw, strDataAppend, countQL_append]
      have h1 : countQL " WHERE ".data = 0 := by decide
      rw [h1, joinSep_count (by decide)]
      omega
    · rw [if_neg hw]
      have hnil : s.whereClauses = [] := by
        cases hxs : s.whereClauses with
        | nil => rfl
        | cons a as => rw [hxs] at hw; simp at hw
      rw [hnil]
      decide
  have hhb : countQL (if s.havingClauses.length > 0
      then (" HAVING " ++ joinSep " " s.havingClauses).data else []) =
      sumCount s.havingClauses := by
    by_cases hh : s.havingClauses.length > 0
    · rw [if_pos hh, strDataAppend, countQL_append]
      have h1 : countQL " HAVING ".data = 0 := by decide
      rw [h1, joinSep_count (by decide)]
      omega
    · rw [if_neg hh]
      have hnil : s.havingClauses = [] := by
        cases hxs : s.havingClauses with
        | nil => rfl
        | cons a as => rw [hxs] at hh; simp at hh
      rw [hnil]
      decide
  rw [h0, hwb, hhb]
  unfold countInv at hinv
  omega

/-- Substituting `params` into the compiled SELECT of a phase-2-aligned state
reproduces the inline compilation. -/
theorem substQL_buildSelect {s t : BState} (inv : alignInv2 s t) :
    substQL (buildSelect mysqlLimitSyntax s).data s.params =
      (buildSelect mysqlLimitSyntax t).data := by
  obtain ⟨cds, cdt, htp, hwlen, hhlen, wps, hps, hsplit, hwcnt, hwsub, hhcnt, hhsub⟩ := inv
  rw [buildSelect_core cds, buildSelect_core cdt, hsplit]
  have hsel : countQL "SELECT *".data = 0 := by decide
  have hwblockcnt : countQL ("SELECT *".data ++
      (if s.whereClauses.length > 0
        then (" WHERE " ++ joinSep " " s.whereClauses).data else [])) = wps.length := by
    rw [countQL_append, hsel]
    by_cases hw : s.whereClauses.length > 0
    · rw [if_pos hw, strDataAppend, countQL_append]
      have h1 : countQL " WHERE ".data = 0 := by decide
      rw [h1, hwcnt]
      omega
    · rw [if_neg hw]
      have hnil : s.whereClauses = [] := by
        cases hxs : s.whereClauses with
        | nil => rfl
        | cons a as => rw [hxs] at hw; simp at hw
      rw [hnil] at hwcnt
      have h2 : countQL (joinSep " " ([] : List String)).data = 0 := by decide
      rw [h2] at hwcnt
      have h3 : countQL ([] : List Char) = 0 := by decide
      rw [h3]
      omega
  rw [substQL_append_exact hwblockcnt, substQL_prefix_no hsel]
  have hWsub : substQL (if s.whereClauses.length > 0
      then (" WHERE " ++ joinSep " " s.whereClauses).data else []) wps =
      (if t.whereClauses.length > 0
        then (" WHERE " ++ joinSep " " t.whereClauses).data else []) := by
    by_cases hw : s.whereClauses.length > 0
    · have hwt : t.whereClauses.length > 0 := by omega
      rw [if_pos hw, if_pos hwt, strDataAppend, strDataAppend]
      rw [substQL_prefix_no (by decide), hwsub]
    · have hwt : ¬ t.whereClauses.length > 0 := by omega
      rw [if_neg hw, if_neg hwt]
      have hnil : s.whereClauses = [] := by
        cases hxs : s.whereClauses with
        | nil => rfl
        | cons a as => rw [hxs] at hw; simp at hw
      rw [hnil] at hwcnt
      have h2 : countQL (joinSep " " ([] : List String)).data = 0 := by decide
      rw [h2] at hwcnt
      have hwps : wps = [] := List.eq_nil_of_length_eq_zero hwcnt.symm
      rw [hwps]
      rfl
  have hHsub : substQL (if s.havingClauses.length > 0
      then (" HAVING " ++ joinSep " " s.havingClauses).data else []) hps =
      (if t.havingClauses.length > 0
        then (" HAVING " ++ joinSep " " t.havingClauses).data else []) := by
    by_cases hh : s.havingClauses.length > 0
    · have hht : t.havingClauses.length > 0 := by omega
      rw [if_pos hh, if_pos hht, strDataAppend, strDataAppend]
      rw [substQL_prefix_no (by decide), hhsub]
    · have hht : ¬ t.havingClauses.length > 0 := by omega
      rw [if_neg hh, if_neg hht]
      have hnil : s.havingClauses = [] := by
        cases hxs : s.havingClauses with
        | nil => rfl
        | cons a as => rw [hxs] at hh; simp at hh
      rw [hnil] at hhcnt
      have h2 : countQL (joinSep " " ([] : List String)).data = 0 := by decide
      rw [h2] at hhcnt
      have hhps : hps = [] := List.eq_nil_of_length_eq_zero hhcnt.symm
      rw [hhps]
      rfl
  rw [hWsub, hHsub]

/-- C1: the claimed invariant fails as stated.  First, `where("a = ?")` (the
raw-condition form of `where`) yields a compiled SELECT with one `?` while
`params` stays empty, so the placeholder count does not equal
`params.length`.  Second, even with placeholder-free arguments the positional
binding fails once a where-family call follows a having-family call:
`having` then `where` stores `params` in call order, but the SQL emits the
WHERE block before the HAVING block, so substituting `params` left to right
binds the HAVING value to the WHERE placeholder — it does not reproduce the
inline compilation. -/
theorem c1_counterexample_placeholder_misalignment :
    runCalls mysqlEscapeIdentifier [.wRaw "a = ?"] initState =
      .ok { initState with whereClauses := ["a = ?"] } ∧
    countQL (buildSelect mysqlLimitSyntax
      { initState with whereClauses := ["a = ?"] }).data = 1 ∧
    ({ initState with whereClauses := ["a = ?"] } : BState).params.length = 0 ∧
    runCalls mysqlEscapeIdentifier
      [.hVal "h" (.i 1) ">", .wVal "w" (.i 2) "="] initState =
      .ok { initState with
            whereClauses := ["`w` = ?"]
            havingClauses := ["`h` > ?"]
            params := [.i 1, .i 2] } ∧
    runCallsI mysqlEscapeIdentifier
      [.hVal "h" (.i 1) ">", .wVal "w" (.i 2) "="] initState =
      .ok { initState with
            whereClauses := ["`w` = 2"]
            havingClauses := ["`h` > 1"] } ∧
    substQL (buildSelect mysqlLimitSyntax
        { initState with
          whereClauses := ["`w` = ?"]
          havingClauses := ["`h` > ?"]
          params := [.i 1, .i 2] }).data [.i 1, .i 2] ≠
      (buildSelect mysqlLimitSyntax
        { initState with
          whereClauses := ["`w` = 2"]
          havingClauses := ["`h` > 1"] }).data :=
  ⟨rfl, by decide, rfl, rfl, rfl, by decide⟩

/-- C1 (amended): for every successful sequence of clause-accumulating calls
on a fresh builder whose user-supplied strings are `?`-free, the number of
`?` placeholders in the SQL returned by `buildSelectQuery` equals
`params.length`; and if additionally no where-family call follows a
having-family call, substituting `params` left to right for the placeholders
reproduces the inline compilation of the same call sequence — i.e. the i-th
placeholder is bound by `params[i]`. -/
theorem c1_amended_count_and_alignment (cs : List QCall) (s' : BState)
    (hg : ∀ c ∈ cs, goodCall c = true)
    (hrun : runCalls mysqlEscapeIdentifier cs initState = .ok s') :
    countQL (buildSelect mysqlLimitSyntax s').data = s'.params.length ∧
    (phasedOk cs = true →
      ∃ t', runCallsI mysqlEscapeIdentifier cs initState = .ok t' ∧
        substQL (buildSelect mysqlLimitSyntax s').data s'.params =
          (buildSelect mysqlLimitSyntax t').data) := by
  have hinit : countInv initState ∧ coreDefaults initState :=
    ⟨rfl, rfl, rfl, rfl, rfl, rfl, rfl, rfl⟩
  have hinv := runCalls_inv cs hg initState s' hrun hinit
  constructor
  · exact countQL_buildSelect hinv.2 hinv.1
  · intro hph
    have hal1 : alignInv1 initState initState :=
      ⟨hinit.2, hinit.2, rfl, rfl, rfl, rfl, rfl, rfl⟩
    obtain ⟨t', ht', inv2⟩ := runCalls_phasedAux cs hg hph initState initState hal1 s' hrun
    exact ⟨t', ht', substQL_buildSelect inv2⟩

/-- Witness for C1 amended: a `where`, a two-element `whereIn`, then a
`having` on a fresh builder. -/
theorem c1_amended_count_witness :
    (∀ c ∈ ([.wVal "a" (.i 1) "=", .wIn "b" [.i 2, .i 3],
        .hVal "c" (.i 4) ">"] : List QCall), goodCall c = true) ∧
    runCalls mysqlEscapeIdentifier
      [.wVal "a" (.i 1) "=", .wIn "b" [.i 2, .i 3], .hVal "c" (.i 4) ">"] initState =
      .ok { initState with
            whereClauses := ["`a` = ?", "`b` IN (?, ?)"]
            havingClauses := ["`c` > ?"]
            params := [.i 1, .i 2, .i 3, .i 4] } ∧
    (countQL (buildSelect mysqlLimitSyntax
        { initState with
          whereClauses := ["`a` = ?", "`b` IN (?, ?)"]
          havingClauses := ["`c` > ?"]
          params := [.i 1, .i 2, .i 3, .i 4] }).data =
      ({ initState with
          whereClauses := ["`a` = ?", "`b` IN (?, ?)"]
          havingClauses := ["`c` > ?"]
          params := [.i 1, .i 2, .i 3, .i 4] } : BState).params.length ∧
      (phasedOk [.wVal "a" (.i 1) "=", .wIn "b" [.i 2, .i 3],
          .hVal "c" (.i 4) ">"] = true →
        ∃ t', runCallsI mysqlEscapeIdentifier
            [.wVal "a" (.i 1) "=", .wIn "b" [.i 2, .i 3], .hVal "c" (.i 4) ">"]
            initState = .ok t' ∧
          substQL (buildSelect mysqlLimitSyntax
            { initState with
              whereClauses := ["`a` = ?", "`b` IN (?, ?)"]
              havingClauses := ["`c` > ?"]
              params := [.i 1, .i 2, .i 3, .i 4] }).data
            [.i 1, .i 2, .i 3, .i 4] =
          (buildSelect mysqlLimitSyntax t').data)) :=
  ⟨by decide, rfl,
    c1_amended_count_and_alignment
      [.wVal "a" (.i 1) "=", .wIn "b" [.i 2, .i 3], .hVal "c" (.i 4) ">"]
      { initState with
        whereClauses := ["`a` = ?", "`b` IN (?, ?)"]
        havingClauses := ["`c` > ?"]
        params := [.i 1, .i 2, .i 3, .i 4] }
      (by decide) rfl⟩

/-- Witness for C8 amended at concrete inputs. -/
theorem c8_amended_witness :
    fromPG "public" "users" initState =
      .ok { initState with fromTable := pgQuote "public" ++ "." ++ pgQuote "users" } ∧
    (∃ e, fromPG "public" "my tab" initState = .error e) := by
  constructor
  · exact c8_amended_from_schema_qualification.1 "users" rfl rfl
  · exact c8_amended_from_schema_qualification.2.2.1 "my tab" initState (by decide)

/-- Witness for C7 amended, at the default ceiling and just below it. -/
theorem c7_amended_witness :
    whereValV2 defaultValidation mysqlEscapeIdentifier "a" (.i 1) "="
        { initState with whereClauses := List.replicate 50 "x" } =
      .error "Muitas condições WHERE (máximo: 50)" ∧
    whereValV2 defaultValidation mysqlEscapeIdentifier "a" (.i 1) "=" initState =
      .ok (addWhereClause (mysqlEscapeIdentifier "a" ++ " " ++ "=" ++ " ?")
        (.one (.i 1)) initState) ∧
    (∃ s', orWhereValV2 defaultValidation mysqlEscapeIdentifier "a" (.i 1) "="
        { initState with whereClauses := ["c"] } = .ok s' ∧
      s'.whereClauses.length = 2) := by
  refine ⟨?_, ?_, ?_⟩
  · exact c7_amended_ceiling_v2_where_only.1
      { initState with whereClauses := List.replicate 50 "x" } "a" (.i 1) "=" (by decide)
  · exact c7_amended_ceiling_v2_where_only.2.1 initState "a" (.i 1) (by decide)
  · exact c7_amended_ceiling_v2_where_only.2.2.1
      { initState with whereClauses := ["c"] } "a" (.i 1) (by decide)

end Microbase
